import Mathlib

/-!
# kvk-bevoegdheden: retrieval of an inschrijving (`inschrijving.go`)

A shallow embedding of `getFilePath` and `GetInschrijving`.

* Go strings and byte slices are Lean `String`s (valid UTF-8 text; on such
  strings the byte-wise prefix test and byte-wise order of Go coincide with
  the code-point-wise ones used here).
* The file system is an explicit state `FS`, threaded through the call.
* The collaborators that live outside `inschrijving.go` (WS-Security
  signing, the SOAP client, XML deserialisation, the UUID generator) are
  parameters of the call (`World`, `uuidNew`).
* Every external effect of a call is recorded in a trace of `Event`s.
  Output on standard output (`fmt.Println`, `fmt.Printf`) is not recorded.
* Files and directories created by a call get the permissions asked for
  (modes 0644 and 0700 for the calling process). Names are limited to 255
  bytes per component and paths to 4095 bytes. A write can break off and
  leave a partially written file. Symbolic links are not modelled.
-/

set_option autoImplicit false

namespace Bevoegdheden

deriving instance DecidableEq for Except

/-! ## The file system -/

/-- Error numbers reported by the operating system calls used here. -/
inductive Errno
  | ENOENT
  | ENOTDIR
  | EISDIR
  | EACCES
  | EINVAL
  | ENAMETOOLONG
  | ENOSPC
  deriving DecidableEq, Repr

/-- A node of the file tree: a regular file with its permission bits for the
calling process, or a directory. -/
inductive Node
  | file (content : String) (readable writable : Bool)
  | dir (listable writable : Bool)
  deriving DecidableEq, Repr

/-- A resolved path: its components below the working directory, innermost
first. `[]` is the working directory itself. -/
abbrev Path := List String

/-- The file tree below the working directory, as an association list from
resolved paths to nodes. The first binding of a path is the one in effect. -/
abbrev FS := List (Path × Node)

/-- The node bound to a resolved path. -/
def lookupNode : FS → Path → Option Node
  | [], _ => none
  | (q, nd) :: rest, p => if q = p then some nd else lookupNode rest p

/-- Bind a resolved path to a node, replacing the binding in effect. -/
def setNode : FS → Path → Node → FS
  | [], p, nd => [(p, nd)]
  | (q, old) :: rest, p, nd =>
    if q = p then (p, nd) :: rest else (q, old) :: setNode rest p nd

/-- Split a path at every `/`. -/
def splitChars : List Char → List (List Char)
  | [] => [[]]
  | c :: cs =>
    if c = '/' then [] :: splitChars cs
    else
      match splitChars cs with
      | [] => [[c]]
      | h :: t => (c :: h) :: t

/-- The components of a path name. -/
def splitPath (name : String) : List String :=
  (splitChars name.data).map String.mk

/-- The length of a name in bytes (UTF-8). -/
def byteLen (s : String) : Nat :=
  (s.data.map Char.utf8Size).sum

/-- Walk the components of a relative path name from directory `cur`. Every
directory on the way has to exist; the last component may be missing. A
component of more than 255 bytes is too long. A path that leaves the working
directory through `..` is outside the tree and reported as missing. -/
def walk (fs : FS) : Path → List String → Except Errno Path
  | cur, [] => .ok cur
  | cur, c :: cs =>
    match lookupNode fs cur with
    | some (Node.dir _ _) =>
      if c = "" ∨ c = "." then walk fs cur cs
      else if c = ".." then
        if cur = [] then .error .ENOENT else walk fs cur.tail cs
      else if 255 < byteLen c then .error .ENAMETOOLONG
      else walk fs (c :: cur) cs
    | some (Node.file _ _ _) => .error .ENOTDIR
    | none => .error .ENOENT

/-- Resolve a path name against the working directory. The empty name does
not exist, a name with a NUL byte is invalid, a name of 4096 bytes or more
is too long, an absolute name is outside the tree. -/
def resolve (fs : FS) (name : String) : Except Errno Path :=
  if name = "" then .error .ENOENT
  else if name.data.any (fun c => c = Char.ofNat 0) then .error .EINVAL
  else if 4096 ≤ byteLen name then .error .ENAMETOOLONG
  else if name.data.head? = some '/' then .error .ENOENT
  else walk fs [] (splitPath name)

/-- The entry of a directory listing (`os.FileInfo`): name and kind. -/
structure FileInfo where
  Name : String
  IsDir : Bool
  deriving DecidableEq, Repr

/-- Byte-wise "less than" on names, the order of a directory listing. -/
def ltChars : List Char → List Char → Bool
  | _, [] => false
  | [], _ :: _ => true
  | a :: as, b :: bs =>
    if a.toNat < b.toNat then true
    else if b.toNat < a.toNat then false
    else ltChars as bs

/-- Insert an entry into a listing sorted by name. -/
def insertByName (x : FileInfo) : List FileInfo → List FileInfo
  | [] => [x]
  | y :: ys =>
    if ltChars y.Name.data x.Name.data then y :: insertByName x ys
    else x :: y :: ys

/-- Sort a listing by name. -/
def sortByName : List FileInfo → List FileInfo
  | [] => []
  | x :: xs => insertByName x (sortByName xs)

/-- The bindings of the tree that lie directly in directory `d`, in the
order of the association list. -/
def children (d : Path) : FS → List FileInfo
  | [] => []
  | (p, nd) :: rest =>
    match p with
    | name :: parent =>
      if parent = d then
        (match nd with
          | Node.dir _ _ => ⟨name, true⟩
          | Node.file _ _ _ => ⟨name, false⟩) :: children d rest
      else children d rest
    | [] => children d rest

/-- Model of `ioutil.ReadDir`: the entries of a directory sorted by name. -/
def ioutilReadDir (fs : FS) (dirname : String) : Except Errno (List FileInfo) :=
  match resolve fs dirname with
  | .error e => .error e
  | .ok d =>
    match lookupNode fs d with
    | some (Node.dir true _) => .ok (sortByName (children d fs))
    | some (Node.dir false _) => .error .EACCES
    | some (Node.file _ _ _) => .error .ENOTDIR
    | none => .error .ENOENT

/-- Model of `os.ReadFile`: the whole content of a readable regular file. -/
def osReadFile (fs : FS) (name : String) : Except Errno String :=
  match resolve fs name with
  | .error e => .error e
  | .ok p =>
    match lookupNode fs p with
    | some (Node.file content true _) => .ok content
    | some (Node.file _ false _) => .error .EACCES
    | some (Node.dir _ _) => .error .EISDIR
    | none => .error .ENOENT

/-- Model of `os.Stat`. -/
def osStat (fs : FS) (name : String) : Except Errno Node :=
  match resolve fs name with
  | .error e => .error e
  | .ok p =>
    match lookupNode fs p with
    | some nd => .ok nd
    | none => .error .ENOENT

/-- Model of `os.IsNotExist` applied to the error of an `os.Stat`. -/
def osIsNotExist : Except Errno Node → Bool
  | .error .ENOENT => true
  | _ => false

/-- The directory-creating walk of `os.MkdirAll`: missing directories are
created (listable and writable, mode 0700) from the outside in. The state
reached is returned together with the error, if any. -/
def mkdirWalk : FS → Path → List String → FS × Option Errno
  | fs, cur, [] =>
    match lookupNode fs cur with
    | some (Node.dir _ _) => (fs, none)
    | some (Node.file _ _ _) => (fs, some .ENOTDIR)
    | none => (fs, some .ENOENT)
  | fs, cur, c :: cs =>
    match lookupNode fs cur with
    | some (Node.dir _ wr) =>
      if c = "" ∨ c = "." then mkdirWalk fs cur cs
      else if c = ".." then
        if cur = [] then (fs, some .ENOENT) else mkdirWalk fs cur.tail cs
      else if 255 < byteLen c then (fs, some .ENAMETOOLONG)
      else
        match lookupNode fs (c :: cur) with
        | some _ => mkdirWalk fs (c :: cur) cs
        | none =>
          if wr then mkdirWalk (setNode fs (c :: cur) (Node.dir true true)) (c :: cur) cs
          else (fs, some .EACCES)
    | some (Node.file _ _ _) => (fs, some .ENOTDIR)
    | none => (fs, some .ENOENT)

/-- Model of `os.MkdirAll(path, 0700)`. -/
def osMkdirAll (fs : FS) (path : String) : FS × Option Errno :=
  if path = "" then (fs, some .ENOENT)
  else if path.data.any (fun c => c = Char.ofNat 0) then (fs, some .EINVAL)
  else if 4096 ≤ byteLen path then (fs, some .ENAMETOOLONG)
  else if path.data.head? = some '/' then (fs, some .ENOENT)
  else mkdirWalk fs [] (splitPath path)

/-- The writing and closing of a file that `os.WriteFile` has opened at `p`
(created, or truncated). `fault` is what the disk does: `none` when all of
`data` is written, `some k` when the write breaks off after `k` characters,
which leaves the file with what was written so far and reports an error. -/
def writeOpened (fs : FS) (p : Path) (readable : Bool) (data : String)
    (fault : Option Nat) : FS × Option Errno :=
  match fault with
  | none => (setNode fs p (Node.file data readable true), none)
  | some k => (setNode fs p (Node.file (String.mk (data.data.take k)) readable true), some .ENOSPC)

/-- Model of `os.WriteFile(name, data, 0644)`: create the file, or truncate
an existing writable one, then write. The tree reached is returned together
with the error, if any: when the file cannot be opened the tree is
unchanged, when the write breaks off the file is left partially written. -/
def osWriteFile (fs : FS) (name data : String) (fault : Option Nat) : FS × Option Errno :=
  match resolve fs name with
  | .error e => (fs, some e)
  | .ok [] => (fs, some .EISDIR)
  | .ok (c :: parent) =>
    match lookupNode fs (c :: parent) with
    | some (Node.dir _ _) => (fs, some .EISDIR)
    | some (Node.file _ r true) => writeOpened fs (c :: parent) r data fault
    | some (Node.file _ _ false) => (fs, some .EACCES)
    | none =>
      match lookupNode fs parent with
      | some (Node.dir _ true) => writeOpened fs (c :: parent) true data fault
      | some (Node.dir _ false) => (fs, some .EACCES)
      | some (Node.file _ _ _) => (fs, some .ENOTDIR)
      | none => (fs, some .ENOENT)

/-! ## `getFilePath` -/

/-- Model of `strings.HasPrefix(s, prefix)`. -/
def stringsHasPrefix (s pre : String) : Bool :=
  pre.data.isPrefixOf s.data

/-- The `for _, file := range files` loop of `getFilePath`: the first entry
that is not a directory and whose name starts with `kvkNummer` ends the loop. -/
def getFilePathLoop (cachePath kvkNummer : String) : List FileInfo → String
  | [] => ""
  | file :: files =>
    if !file.IsDir then
      if stringsHasPrefix file.Name kvkNummer then cachePath ++ file.Name
      else getFilePathLoop cachePath kvkNummer files
    else getFilePathLoop cachePath kvkNummer files

/-- The body of `getFilePath` after the directory has been listed. -/
def getFilePathFrom (listing : Except Errno (List FileInfo)) (kvkNummer : String) : String :=
  let cachePath := "./cache-inschrijvingen/"
  match listing with
  | .error _ => ""
  | .ok files => getFilePathLoop cachePath kvkNummer files

/-- Model of `getFilePath`. -/
def getFilePath (fs : FS) (kvkNummer : String) : String :=
  getFilePathFrom (ioutilReadDir fs "./cache-inschrijvingen/") kvkNummer

/-! ## The data of a call -/

/-- Modelled from the spec: the fault of `models` ("an optional Fault
{code, description}"); the package `models` is not part of the sources. -/
structure Fout where
  Code : String
  Omschrijving : String
  deriving DecidableEq, Repr

/-- Modelled from the spec: the messages section of a reply, holding the
optional fault; the package `models` is not part of the sources. -/
structure Meldingen where
  Fout : Option Fout
  deriving DecidableEq, Repr

/-- Modelled from the spec: the structured response, "deserialized business
payload plus an optional Fault", with the verbatim raw document; the package
`models` is not part of the sources. The business payload is kept abstract. -/
structure OphalenInschrijvingResponse where
  Meldingen : Meldingen
  Product : String
  InschrijvingXML : String
  deriving DecidableEq, Repr

/-- Modelled from the spec: the request payload, the registry number; the
package `models` is not part of the sources. -/
structure OphalenInschrijvingRequest where
  KvkNummer : String
  deriving DecidableEq, Repr

/-- Modelled from the spec: the credential accepted by the signing step; the
package `soap` is not part of the sources. -/
structure WSSEAuthInfo where
  certificate : String
  key : String
  deriving DecidableEq, Repr

/-- Modelled from the spec: the protocol headers of an envelope (action,
message id, destination); the package `soap` is not part of the sources. -/
inductive Header
  | ActionHeader (ID Value : String)
  | MessageIDHeader (ID Value : String)
  | ToHeader (ID Address : String)
  deriving DecidableEq, Repr

/-- Modelled from the spec: the outbound request, "one business payload + an
ordered set of protocol headers + a signature block"; the package `soap` is
not part of the sources. `soap.NewRequest` fills `action`, `url` and `body`,
`AddHeader` appends to `headers`, `SignWith` sets `wsseInfo`. -/
structure Request where
  action : String
  url : String
  body : OphalenInschrijvingRequest
  headers : List Header
  wsseInfo : Option WSSEAuthInfo
  deriving DecidableEq, Repr

/-- Modelled from the spec: what the transport hands back, "the raw response
body and status code"; the package `soap` is not part of the sources. -/
structure Response where
  StatusCode : Int
  RespBody : String
  deriving DecidableEq, Repr

/-- The error values a call can return. `ErrInschrijvingNotFound` is the
package-level sentinel, `errorsNew` a value made by `errors.New` inside the
call, `foreign` an error handed over by a collaborator. -/
inductive GoError
  | ErrInschrijvingNotFound
  | errorsNew (text : String)
  | foreign (text : String)
  deriving DecidableEq, Repr

/-- The text of an error (`err.Error()`). -/
def GoError.Error : GoError → String
  | .ErrInschrijvingNotFound => "inschrijving niet gevonden op basis van het KVK nummer"
  | .errorsNew text => text
  | .foreign text => text

/-- The collaborators of a call: the signing step `soap.NewWSSEAuthInfo`,
the deserialisation of a cached document (`xml.Unmarshal` into a fresh
envelope followed by the type assertion on its content; `none` when either
fails), the SOAP client `soapClient.Do` over a TLS client built from
`cert` and `key`, which on success yields the reply and the value it
deserialised into the response struct passed to `soap.NewRequest`, and the
disk: `WriteFault name data` tells whether writing `data` to `name` breaks
off, and after how many characters. -/
structure World where
  NewWSSEAuthInfo : String → String → Except String WSSEAuthInfo
  xmlUnmarshal : String → Option OphalenInschrijvingResponse
  Do : String → String → Request → Except String (Response × OphalenInschrijvingResponse)
  WriteFault : String → String → Option Nat

/-- The external effects of a call, in the order they happen. -/
inductive Event
  | readDir (dirname : String)
  | readFile (name : String)
  | xmlUnmarshal (data : String)
  | newWSSEAuthInfo (cert key : String)
  | newRequest (req : Request)
  | soapDo (cert key : String) (req : Request)
  | stat (name : String)
  | mkdirAll (path : String)
  | writeFile (name data : String)
  deriving DecidableEq, Repr

/-- How a call ends: it returns the pair `(response, error)`, either of which
may be nil, or it panics. -/
inductive Outcome
  | returned (resp : Option OphalenInschrijvingResponse) (err : Option GoError)
  | panicked
  deriving DecidableEq, Repr

/-- A finished call: how it ended, the file tree it leaves, and its effects. -/
structure Run where
  outcome : Outcome
  fs : FS
  trace : List Event
  deriving DecidableEq, Repr

/-! ## `GetInschrijving` -/

/-- The request assembled in lines 74-101 of `GetInschrijving`. -/
def buildRequest (uuidNew kvkNummer env : String) (wsseInfo : WSSEAuthInfo) : Request :=
  let ophalenInschrijvingRequest : OphalenInschrijvingRequest := { KvkNummer := kvkNummer }
  let url := if env = "prd" then "https://webservices.kvk.nl/postbus2"
    else "https://webservices.preprod.kvk.nl/postbus2"
  let toAddress := if env = "prd" then "http://es.kvk.nl/KVK-Dataservice/2015/02"
    else "http://es.kvk.nl/KVK-DataservicePP/2015/02"
  { action := "http://es.kvk.nl/ophalenInschrijving"
    url := url
    body := ophalenInschrijvingRequest
    headers :=
      [Header.ActionHeader "_2" "http://es.kvk.nl/ophalenInschrijving",
       Header.MessageIDHeader "_3" ("uuid:" ++ uuidNew),
       Header.ToHeader "_4" toAddress]
    wsseInfo := some wsseInfo }

/-- Lines 131-133: the cache directory is created when `os.Stat` reports it
missing; the error of `os.MkdirAll` is dropped. -/
def ensureCacheDir (fs : FS) (cachePath : String) : FS :=
  if osIsNotExist (osStat fs cachePath) then (osMkdirAll fs cachePath).1 else fs

/-- The cache write of lines 130-135: the directory is created when missing,
then the reply is written; the error of `os.WriteFile` is dropped. -/
def storeInschrijving (fault : String → String → Option Nat) (fs : FS)
    (cachePath kvkNummer respBody : String) : FS × List Event :=
  let name := cachePath ++ "/" ++ kvkNummer ++ ".xml"
  let missing := osIsNotExist (osStat fs cachePath)
  let fs1 := ensureCacheDir fs cachePath
  let fs2 := (osWriteFile fs1 name respBody (fault name respBody)).1
  (fs2,
    Event.stat cachePath ::
      ((if missing then [Event.mkdirAll cachePath] else []) ++ [Event.writeFile name respBody]))

/-- Lines 62-147 of `GetInschrijving`: what happens once the cache has not
answered. `trace` holds the effects of the cache lookup. -/
def fetchInschrijving (w : World) (fs : FS) (uuidNew : String)
    (kvkNummer cert key : String) (useCache : Bool) (env : String)
    (trace : List Event) : Run :=
  let cachePath := "cache-inschrijvingen"
  if cert = "" ∨ key = "" then
    ⟨.returned none
      (some (.errorsNew "no certificate or private key, so no connection possible with HRDS")),
      fs, trace⟩
  else
    match w.NewWSSEAuthInfo cert key with
    | .error authErr =>
      ⟨.returned none (some (.foreign authErr)), fs, trace ++ [.newWSSEAuthInfo cert key]⟩
    | .ok wsseInfo =>
      let soapReq := buildRequest uuidNew kvkNummer env wsseInfo
      let trace1 := trace ++ [.newWSSEAuthInfo cert key, .newRequest soapReq, .soapDo cert key soapReq]
      match w.Do cert key soapReq with
      | .error err => ⟨.returned none (some (.foreign err)), fs, trace1⟩
      | .ok (soapResp, ophalenInschrijvingResponse) =>
        if soapResp.StatusCode ≠ 200 then
          -- `return nil, err` with `err == nil`
          ⟨.returned none none, fs, trace1⟩
        else
          match ophalenInschrijvingResponse.Meldingen.Fout with
          | some fout =>
            if fout.Code = "IPD0004" then
              ⟨.returned none (some .ErrInschrijvingNotFound), fs, trace1⟩
            else
              ⟨.returned none (some (.errorsNew fout.Omschrijving)), fs, trace1⟩
          | none =>
            let stored :=
              if useCache then
                storeInschrijving w.WriteFault fs cachePath kvkNummer soapResp.RespBody
              else (fs, [])
            ⟨.returned
              (some { ophalenInschrijvingResponse with InschrijvingXML := soapResp.RespBody })
              none, stored.1, trace1 ++ stored.2⟩

/-- Model of `GetInschrijving`. `uuidNew` is the text of the identifier
drawn by `uuid.New()`. -/
def GetInschrijving (w : World) (fs : FS) (uuidNew : String)
    (kvkNummer cert key : String) (useCache : Bool) (env : String) : Run :=
  if useCache then
    let filePath := getFilePath fs kvkNummer
    let trace := [Event.readDir "./cache-inschrijvingen/", Event.readFile filePath]
    match osReadFile fs filePath with
    | .ok respBody =>
      match w.xmlUnmarshal respBody with
      | none => ⟨.panicked, fs, trace ++ [.xmlUnmarshal respBody]⟩
      | some r =>
        ⟨.returned (some { r with InschrijvingXML := respBody }) none, fs,
          trace ++ [.xmlUnmarshal respBody]⟩
    | .error _ => fetchInschrijving w fs uuidNew kvkNummer cert key useCache env trace
  else fetchInschrijving w fs uuidNew kvkNummer cert key useCache env []

/-- The cache lookup of a call does not answer: caching is off, or the file
named by `getFilePath` cannot be read. -/
def cacheMiss (fs : FS) (kvkNummer : String) (useCache : Bool) : Bool :=
  !useCache ||
    match osReadFile fs (getFilePath fs kvkNummer) with
    | .ok _ => false
    | .error _ => true

/-- An effect that changes the cache: creating the directory or writing an
entry. -/
def Event.isCacheWrite : Event → Bool
  | .mkdirAll _ => true
  | .writeFile _ _ => true
  | _ => false

/-- The address of every destination header of a request, in order. -/
def Request.toAddresses (req : Request) : List String :=
  req.headers.filterMap fun h =>
    match h with
    | Header.ToHeader _ address => some address
    | _ => none

/-- The listing entry of a node. -/
def entryOf (name : String) : Node → FileInfo
  | Node.dir _ _ => ⟨name, true⟩
  | Node.file _ _ _ => ⟨name, false⟩

/-! ## Concrete worlds and file trees -/

/-- A reply payload without fault. -/
def demoResponse : OphalenInschrijvingResponse :=
  { Meldingen := { Fout := none }, Product := "<product/>", InschrijvingXML := "" }

/-- A world whose signing step accepts every credential, whose
deserialisation accepts every document, whose transport answers every
request with `reply`, and whose disk completes every write. -/
def demoWorld (reply : Except String (Response × OphalenInschrijvingResponse)) : World :=
  { NewWSSEAuthInfo := fun cert key => .ok { certificate := cert, key := key }
    xmlUnmarshal := fun _ => some demoResponse
    Do := fun _ _ _ => reply
    WriteFault := fun _ _ => none }

/-- A working directory without cache directory. -/
def fsNoCache : FS := [([], Node.dir true true)]

/-- A cache directory with two annotated entries for registry number 123. -/
def fsTwoEntries : FS :=
  [([], Node.dir true true),
   (["cache-inschrijvingen"], Node.dir true true),
   (["123-b.xml", "cache-inschrijvingen"], Node.file "<b/>" true true),
   (["123-a.xml", "cache-inschrijvingen"], Node.file "<a/>" true true)]

/-- A cache directory that can be listed but not written to. -/
def fsReadOnlyCache : FS :=
  [([], Node.dir true true), (["cache-inschrijvingen"], Node.dir true false)]

/-- A cache directory that holds a single subdirectory `a`. -/
def fsSubdir : FS :=
  [([], Node.dir true true),
   (["cache-inschrijvingen"], Node.dir true true),
   (["a", "cache-inschrijvingen"], Node.dir true true)]

/-! ## Auxiliary facts -/

theorem cacheMiss_of_off (fs : FS) (n : String) : cacheMiss fs n false = true := rfl

theorem cacheMiss_of_error (fs : FS) (n : String) (useCache : Bool) (e : Errno)
    (h : osReadFile fs (getFilePath fs n) = .error e) : cacheMiss fs n useCache = true := by
  simp [cacheMiss, h]

theorem cacheMiss_cases (fs : FS) (n : String) (useCache : Bool)
    (h : cacheMiss fs n useCache = true) :
    useCache = false ∨ ∃ e, osReadFile fs (getFilePath fs n) = .error e := by
  unfold cacheMiss at h
  cases useCache with
  | false => exact Or.inl rfl
  | true =>
    right
    cases hr : osReadFile fs (getFilePath fs n) with
    | ok d => simp [hr] at h
    | error e => exact ⟨e, rfl⟩

theorem getFilePathLoop_eq_find (cachePath n : String) (files : List FileInfo) :
    getFilePathLoop cachePath n files =
      match files.find? (fun f => !f.IsDir && stringsHasPrefix f.Name n) with
      | none => ""
      | some f => cachePath ++ f.Name := by
  induction files with
  | nil => rfl
  | cons f fs ih =>
    cases hd : f.IsDir <;> cases hp : stringsHasPrefix f.Name n <;>
      simp [getFilePathLoop, List.find?, hd, hp, ih]

theorem getFilePathFrom_eq_find (listing : Except Errno (List FileInfo)) (n : String) :
    getFilePathFrom listing n =
      match listing with
      | .error _ => ""
      | .ok files =>
        match files.find? (fun f => !f.IsDir && stringsHasPrefix f.Name n) with
        | none => ""
        | some f => "./cache-inschrijvingen/" ++ f.Name := by
  cases listing with
  | error e => rfl
  | ok files => exact getFilePathLoop_eq_find "./cache-inschrijvingen/" n files

theorem storeInschrijving_trace (fault : String → String → Option Nat) (fs : FS)
    (cachePath n body : String) :
    ∀ ev ∈ (storeInschrijving fault fs cachePath n body).2,
      ev = Event.stat cachePath ∨ ev = Event.mkdirAll cachePath ∨
        ev = Event.writeFile (cachePath ++ "/" ++ n ++ ".xml") body := by
  intro ev hev
  unfold storeInschrijving at hev
  simp only [List.mem_cons, List.mem_append] at hev
  split at hev <;> simp at hev <;> tauto

theorem GetInschrijving_of_miss (w : World) (fs : FS) (u n cert key : String)
    (useCache : Bool) (env : String) (h : cacheMiss fs n useCache) :
    GetInschrijving w fs u n cert key useCache env =
      fetchInschrijving w fs u n cert key useCache env
        (if useCache then
          [Event.readDir "./cache-inschrijvingen/", Event.readFile (getFilePath fs n)]
        else []) := by
  unfold GetInschrijving
  cases useCache with
  | false => simp
  | true =>
    rcases cacheMiss_cases fs n true h with h | ⟨e, he⟩
    · cases h
    · simp [he]

theorem GetInschrijving_of_hit (w : World) (fs : FS) (u n cert key env d : String)
    (h : osReadFile fs (getFilePath fs n) = .ok d) :
    GetInschrijving w fs u n cert key true env =
      match w.xmlUnmarshal d with
      | none =>
        ⟨.panicked, fs, [Event.readDir "./cache-inschrijvingen/",
          Event.readFile (getFilePath fs n), Event.xmlUnmarshal d]⟩
      | some r =>
        ⟨.returned (some { r with InschrijvingXML := d }) none, fs,
          [Event.readDir "./cache-inschrijvingen/",
            Event.readFile (getFilePath fs n), Event.xmlUnmarshal d]⟩ := by
  unfold GetInschrijving
  simp [h]

theorem soapDo_not_mem_store (fault : String → String → Option Nat) (fs : FS)
    (cachePath n body c k : String) (req : Request) :
    Event.soapDo c k req ∉ (storeInschrijving fault fs cachePath n body).2 := by
  intro h
  rcases storeInschrijving_trace fault fs cachePath n body _ h with h | h | h <;> cases h

theorem fetchInschrijving_soapDo_iff (w : World) (fs : FS) (u n cert key : String)
    (useCache : Bool) (env : String) (trace : List Event) (c k : String) (req : Request)
    (htrace : Event.soapDo c k req ∉ trace) :
    Event.soapDo c k req ∈ (fetchInschrijving w fs u n cert key useCache env trace).trace ↔
      cert ≠ "" ∧ key ≠ "" ∧ c = cert ∧ k = key ∧
        ∃ wsse, w.NewWSSEAuthInfo cert key = .ok wsse ∧ req = buildRequest u n env wsse := by
  unfold fetchInschrijving
  by_cases hck : cert = "" ∨ key = ""
  · simp only [hck, if_true]
    constructor
    · intro h; exact absurd h htrace
    · rintro ⟨h1, h2, -⟩; rcases hck with h | h <;> contradiction
  · simp only [hck, if_false]
    push_neg at hck
    cases hauth : w.NewWSSEAuthInfo cert key with
    | error e => simp [htrace, hck.1, hck.2]
    | ok wsse =>
      have hstore := soapDo_not_mem_store w.WriteFault fs "cache-inschrijvingen" n
      have key_fact : ∀ extra : List Event, Event.soapDo c k req ∉ extra →
          (Event.soapDo c k req ∈
            (trace ++ [Event.newWSSEAuthInfo cert key,
              Event.newRequest (buildRequest u n env wsse),
              Event.soapDo cert key (buildRequest u n env wsse)]) ++ extra ↔
            c = cert ∧ k = key ∧ req = buildRequest u n env wsse) := by
        intro extra hextra
        simp [htrace, hextra]
      have key0 := key_fact [] (by simp)
      simp only [List.append_nil] at key0
      cases hdo : w.Do cert key (buildRequest u n env wsse) with
      | error e => simp [hdo, key0, hck.1, hck.2]
      | ok pr =>
        obtain ⟨soapResp, resp⟩ := pr
        simp only [hdo]
        by_cases hst : soapResp.StatusCode = 200
        · simp only [hst, ne_eq, not_true_eq_false, if_false]
          cases hf : resp.Meldingen.Fout with
          | some fout =>
            by_cases hcode : fout.Code = "IPD0004" <;> simp [hcode, key0, hck.1, hck.2]
          | none =>
            cases useCache with
            | false => simp [key0, hck.1, hck.2]
            | true =>
              simp only [if_true]
              rw [key_fact _ (hstore _ _ _ _)]
              simp [hck.1, hck.2]
        · simp [hst, key0, hck.1, hck.2]

/-- A call dispatches a request exactly when the cache does not answer, both
credentials are present and the signing step accepts them; the request is
the one assembled by `buildRequest`, sent over a client built from the
credentials. -/
theorem soapDo_mem_trace_iff (w : World) (fs : FS) (u n cert key : String)
    (useCache : Bool) (env : String) (c k : String) (req : Request) :
    Event.soapDo c k req ∈ (GetInschrijving w fs u n cert key useCache env).trace ↔
      cacheMiss fs n useCache ∧ cert ≠ "" ∧ key ≠ "" ∧ c = cert ∧ k = key ∧
        ∃ wsse, w.NewWSSEAuthInfo cert key = .ok wsse ∧ req = buildRequest u n env wsse := by
  by_cases hmiss : cacheMiss fs n useCache
  · rw [GetInschrijving_of_miss w fs u n cert key useCache env hmiss,
      fetchInschrijving_soapDo_iff]
    · simp [hmiss]
    · cases useCache <;> simp
  · have huc : useCache = true := by
      cases useCache with
      | false => exact absurd (cacheMiss_of_off fs n) hmiss
      | true => rfl
    subst huc
    cases hread : osReadFile fs (getFilePath fs n) with
    | error e => exact absurd (cacheMiss_of_error fs n true e hread) hmiss
    | ok d =>
      rw [GetInschrijving_of_hit w fs u n cert key env d hread]
      cases w.xmlUnmarshal d <;> simp [hmiss]

/-- The outcome of the network path depends neither on the cache flag nor
on the effects recorded so far. -/
theorem fetchInschrijving_outcome (w : World) (fs : FS) (u n cert key : String)
    (useCache : Bool) (env : String) (trace : List Event) :
    (fetchInschrijving w fs u n cert key useCache env trace).outcome =
      (fetchInschrijving w fs u n cert key false env []).outcome := by
  unfold fetchInschrijving
  by_cases hck : cert = "" ∨ key = ""
  · simp only [hck, if_true]
  · simp only [hck, if_false]
    cases w.NewWSSEAuthInfo cert key with
    | error e => rfl
    | ok wsse =>
      simp only []
      cases w.Do cert key (buildRequest u n env wsse) with
      | error e => rfl
      | ok pr =>
        obtain ⟨soapResp, resp⟩ := pr
        simp only []
        by_cases hst : soapResp.StatusCode = 200
        · simp only [hst, ne_eq, not_true_eq_false, if_false]
          cases resp.Meldingen.Fout with
          | some fout => by_cases hcode : fout.Code = "IPD0004" <;> simp [hcode]
          | none => rfl
        · simp only [ne_eq, hst, not_false_eq_true, if_true]

/-- The network path leaves the file tree alone and performs no cache write,
unless caching is on, both credentials are present, the signing step accepts
them and the transport answers with status 200 and no fault. -/
theorem fetchInschrijving_frame (w : World) (fs : FS) (u n cert key : String)
    (useCache : Bool) (env : String) (trace : List Event)
    (htrace : ∀ ev ∈ trace, ev.isCacheWrite = false) :
    ((fetchInschrijving w fs u n cert key useCache env trace).fs = fs ∧
      ∀ ev ∈ (fetchInschrijving w fs u n cert key useCache env trace).trace,
        ev.isCacheWrite = false) ∨
    (useCache = true ∧ cert ≠ "" ∧ key ≠ "" ∧
      ∃ wsse r resp, w.NewWSSEAuthInfo cert key = .ok wsse ∧
        w.Do cert key (buildRequest u n env wsse) = .ok (r, resp) ∧
        r.StatusCode = 200 ∧ resp.Meldingen.Fout = none) := by
  unfold fetchInschrijving
  by_cases hck : cert = "" ∨ key = ""
  · left
    simp only [hck, if_true]
    exact ⟨trivial, htrace⟩
  · simp only [hck, if_false]
    push_neg at hck
    cases hauth : w.NewWSSEAuthInfo cert key with
    | error e =>
      left
      refine ⟨rfl, ?_⟩
      intro ev hev
      simp only [List.mem_append, List.mem_singleton] at hev
      rcases hev with hev | hev
      · exact htrace ev hev
      · subst hev; rfl
    | ok wsse =>
      simp only []
      have hpre : ∀ ev ∈ trace ++ [Event.newWSSEAuthInfo cert key,
          Event.newRequest (buildRequest u n env wsse),
          Event.soapDo cert key (buildRequest u n env wsse)], ev.isCacheWrite = false := by
        intro ev hev
        simp only [List.mem_append, List.mem_cons, List.mem_singleton, List.not_mem_nil,
          or_false] at hev
        rcases hev with hev | hev | hev | hev
        · exact htrace ev hev
        · subst hev; rfl
        · subst hev; rfl
        · subst hev; rfl
      cases hdo : w.Do cert key (buildRequest u n env wsse) with
      | error e => left; exact ⟨rfl, hpre⟩
      | ok pr =>
        obtain ⟨soapResp, resp⟩ := pr
        simp only []
        by_cases hst : soapResp.StatusCode = 200
        · simp only [hst, ne_eq, not_true_eq_false, if_false]
          cases hf : resp.Meldingen.Fout with
          | some fout =>
            left
            by_cases hcode : fout.Code = "IPD0004"
            · simp only [hcode, if_true]; exact ⟨trivial, hpre⟩
            · simp only [hcode, if_false]; exact ⟨trivial, hpre⟩
          | none =>
            cases useCache with
            | false =>
              left
              simp only [Bool.false_eq_true, if_false, List.append_nil]
              exact ⟨trivial, hpre⟩
            | true =>
              right
              exact ⟨rfl, hck.1, hck.2, wsse, soapResp, resp, rfl, hdo, hst, hf⟩
        · left
          simp only [ne_eq, hst, not_false_eq_true, if_true]
          exact ⟨trivial, hpre⟩

/-! ## Facts about the file tree -/

theorem lookupNode_setNode_same (fs : FS) (p : Path) (nd : Node) :
    lookupNode (setNode fs p nd) p = some nd := by
  induction fs with
  | nil => simp [setNode, lookupNode]
  | cons e rest ih =>
    obtain ⟨q, old⟩ := e
    by_cases h : q = p <;> simp [setNode, lookupNode, h, ih]

theorem lookupNode_setNode_ne (fs : FS) (p q : Path) (nd : Node) (h : q ≠ p) :
    lookupNode (setNode fs p nd) q = lookupNode fs q := by
  induction fs with
  | nil => simp [setNode, lookupNode, Ne.symm h]
  | cons e rest ih =>
    obtain ⟨r, old⟩ := e
    by_cases hr : r = p
    · subst hr
      simp [setNode, lookupNode, Ne.symm h]
    · by_cases hq : r = q
      · subst hq
        simp [setNode, lookupNode, hr]
      · simp [setNode, lookupNode, hr, hq, ih]

theorem setNode_of_lookup_none (fs : FS) (p : Path) (nd : Node)
    (h : lookupNode fs p = none) : setNode fs p nd = fs ++ [(p, nd)] := by
  induction fs with
  | nil => rfl
  | cons e rest ih =>
    obtain ⟨q, old⟩ := e
    by_cases hq : q = p
    · simp [lookupNode, hq] at h
    · simp only [lookupNode, hq, if_false] at h
      simp [setNode, hq, ih h]

theorem children_append_child (d : Path) (fs : FS) (name : String) (nd : Node) :
    children d (fs ++ [(name :: d, nd)]) = children d fs ++ [entryOf name nd] := by
  induction fs with
  | nil => cases nd <;> simp [children, entryOf]
  | cons e rest ih =>
    obtain ⟨q, old⟩ := e
    cases q with
    | nil => simpa [children] using ih
    | cons c parent =>
      by_cases hp : parent = d <;> simp [children, hp, ih]

theorem children_append_other (d : Path) (fs : FS) (q : Path) (nd : Node)
    (h : ∀ name, q ≠ name :: d) : children d (fs ++ [(q, nd)]) = children d fs := by
  induction fs with
  | nil =>
    cases q with
    | nil => simp [children]
    | cons c parent =>
      have hp : parent ≠ d := fun hpd => h c (by rw [hpd])
      simp [children, hp]
  | cons e rest ih =>
    obtain ⟨r, old⟩ := e
    cases r with
    | nil => simpa [children] using ih
    | cons c parent =>
      by_cases hp : parent = d <;> simp [children, hp, ih]

theorem mem_children_of_lookup (d : Path) (fs : FS) (name : String) (nd : Node)
    (h : lookupNode fs (name :: d) = some nd) : entryOf name nd ∈ children d fs := by
  induction fs with
  | nil => simp [lookupNode] at h
  | cons e rest ih =>
    obtain ⟨q, old⟩ := e
    by_cases hq : q = name :: d
    · subst hq
      simp only [lookupNode, if_true, Option.some.injEq] at h
      subst h
      cases old <;> simp [children, entryOf]
    · simp only [lookupNode, hq, if_false] at h
      have := ih h
      cases q with
      | nil => simpa [children] using this
      | cons c parent =>
        by_cases hp : parent = d
        · simp [children, hp, this]
        · simpa [children, hp] using this

theorem mem_insertByName (x y : FileInfo) (l : List FileInfo) :
    y ∈ insertByName x l ↔ y = x ∨ y ∈ l := by
  induction l with
  | nil => simp [insertByName]
  | cons z zs ih =>
    unfold insertByName
    split
    · simp only [List.mem_cons, ih]; tauto
    · simp

theorem mem_sortByName (y : FileInfo) (l : List FileInfo) :
    y ∈ sortByName l ↔ y ∈ l := by
  induction l with
  | nil => simp [sortByName]
  | cons z zs ih => simp [sortByName, mem_insertByName, ih]

theorem getFilePathLoop_unique (cachePath n : String) (files : List FileInfo) (f : FileInfo)
    (hmem : f ∈ files) (hdir : f.IsDir = false) (hpre : stringsHasPrefix f.Name n = true)
    (huniq : ∀ g ∈ files, g.IsDir = false → stringsHasPrefix g.Name n = true → g = f) :
    getFilePathLoop cachePath n files = cachePath ++ f.Name := by
  induction files with
  | nil => cases hmem
  | cons g gs ih =>
    by_cases hg : g.IsDir = false ∧ stringsHasPrefix g.Name n = true
    · have := huniq g (List.mem_cons_self _ _) hg.1 hg.2
      subst this
      simp [getFilePathLoop, hg.1, hg.2]
    · have hne : f ≠ g := by
        intro hfg
        subst hfg
        exact hg ⟨hdir, hpre⟩
      have hmem2 : f ∈ gs := by
        rcases List.mem_cons.1 hmem with h | h
        · exact absurd h hne
        · exact h
      have ih2 := ih hmem2 (fun k hk => huniq k (List.mem_cons_of_mem _ hk))
      cases hd : g.IsDir with
      | true => simp [getFilePathLoop, hd, ih2]
      | false =>
        have hp : stringsHasPrefix g.Name n = false := by
          cases hp : stringsHasPrefix g.Name n with
          | true => exact absurd ⟨hd, hp⟩ hg
          | false => rfl
        simp [getFilePathLoop, hd, hp, ih2]

/-- Rebinding a path that is not a directory does not change where a path
name leads. -/
theorem walk_setNode (fs : FS) (p : Path) (nd : Node)
    (hp : ∀ l wr, lookupNode fs p ≠ some (Node.dir l wr)) :
    ∀ (cs : List String) (cur q : Path), walk fs cur cs = .ok q →
      walk (setNode fs p nd) cur cs = .ok q := by
  intro cs
  induction cs with
  | nil => intro cur q h; simpa [walk] using h
  | cons c cs ih =>
    intro cur q h
    unfold walk at h ⊢
    cases hl : lookupNode fs cur with
    | none => simp [hl] at h
    | some node =>
      cases node with
      | file content r wr => simp [hl] at h
      | dir l wr =>
        have hne : cur ≠ p := by
          intro hcp
          subst hcp
          exact hp l wr hl
        rw [lookupNode_setNode_ne fs p cur nd hne, hl]
        simp only [hl] at h
        by_cases h1 : c = "" ∨ c = "."
        · simp only [h1, if_true] at h ⊢
          exact ih _ _ h
        · simp only [h1, if_false] at h ⊢
          by_cases h2 : c = ".."
          · simp only [h2, if_true] at h ⊢
            by_cases h3 : cur = []
            · simp [h3] at h
            · simp only [h3, if_false] at h ⊢
              exact ih _ _ h
          · simp only [h2, if_false] at h ⊢
            by_cases h4 : 255 < byteLen c
            · simp [h4] at h
            · simp only [h4, if_false] at h ⊢
              exact ih _ _ h

theorem resolve_setNode (fs : FS) (p : Path) (nd : Node)
    (hp : ∀ l wr, lookupNode fs p ≠ some (Node.dir l wr)) (name : String) (q : Path)
    (h : resolve fs name = .ok q) : resolve (setNode fs p nd) name = .ok q := by
  unfold resolve at h ⊢
  by_cases h1 : name = ""
  · simp [h1] at h
  · simp only [h1, if_false] at h ⊢
    by_cases h2 : (name.data.any fun c => decide (c = Char.ofNat 0)) = true
    · simp [h2] at h
    · simp only [h2, if_false] at h ⊢
      by_cases h4 : 4096 ≤ byteLen name
      · simp [h4] at h
      · simp only [h4, if_false] at h ⊢
        by_cases h3 : name.data.head? = some '/'
        · simp [h3] at h
        · simp only [h3, if_false] at h ⊢
          exact walk_setNode fs p nd hp _ _ _ h

/-- What `os.WriteFile` does to the tree: nothing, or it binds a path that
was free in a writable directory, or bound to a writable file, to a file. -/
theorem osWriteFile_cases (fs : FS) (name data : String) (fault : Option Nat) :
    ((osWriteFile fs name data fault).1 = fs ∧ (osWriteFile fs name data fault).2 ≠ none) ∨
    ∃ c parent r, resolve fs name = .ok (c :: parent) ∧
      ((lookupNode fs (c :: parent) = none ∧ r = true ∧
          ∃ l, lookupNode fs parent = some (Node.dir l true)) ∨
        ∃ old, lookupNode fs (c :: parent) = some (Node.file old r true)) ∧
      osWriteFile fs name data fault = writeOpened fs (c :: parent) r data fault := by
  unfold osWriteFile
  cases hr : resolve fs name with
  | error e => left; simp
  | ok p =>
    cases p with
    | nil => left; simp
    | cons c parent =>
      simp only []
      cases hl : lookupNode fs (c :: parent) with
      | none =>
        simp only []
        cases hpar : lookupNode fs parent with
        | none => left; simp
        | some pn =>
          cases pn with
          | file content r wr => left; simp
          | dir l wr =>
            cases wr with
            | false => left; simp
            | true => right; exact ⟨c, parent, true, rfl, Or.inl ⟨hl, rfl, l, hpar⟩, rfl⟩
      | some node =>
        cases node with
        | dir l wr => left; simp
        | file old r wr =>
          cases wr with
          | false => left; simp
          | true => right; exact ⟨c, parent, r, rfl, Or.inr ⟨old, hl⟩, rfl⟩

theorem writeOpened_fst (fs : FS) (p : Path) (r : Bool) (data : String) (fault : Option Nat) :
    ∃ content, (writeOpened fs p r data fault).1 = setNode fs p (Node.file content r true) := by
  cases fault with
  | none => exact ⟨data, rfl⟩
  | some k => exact ⟨String.mk (data.data.take k), rfl⟩

theorem writeOpened_ok (fs : FS) (p : Path) (r : Bool) (data : String) (fault : Option Nat)
    (h : (writeOpened fs p r data fault).2 = none) :
    fault = none ∧ (writeOpened fs p r data fault).1 = setNode fs p (Node.file data r true) := by
  cases fault with
  | none => exact ⟨rfl, rfl⟩
  | some k => simp [writeOpened] at h

/-- A write, whether it succeeds or fails, leaves every directory as it is. -/
theorem osWriteFile_preserves_dir (fs : FS) (name data : String) (fault : Option Nat)
    (p : Path) (l wr : Bool) (h : lookupNode fs p = some (Node.dir l wr)) :
    lookupNode (osWriteFile fs name data fault).1 p = some (Node.dir l wr) := by
  rcases osWriteFile_cases fs name data fault with ⟨hfs, -⟩ | ⟨c, parent, r, -, hcase, hw⟩
  · rw [hfs]; exact h
  · obtain ⟨content, hc⟩ := writeOpened_fst fs (c :: parent) r data fault
    rw [hw, hc]
    have hne : p ≠ c :: parent := by
      intro hp
      subst hp
      rcases hcase with ⟨hnone, -⟩ | ⟨old, hold⟩
      · rw [hnone] at h; cases h
      · rw [hold] at h; cases h
    rw [lookupNode_setNode_ne _ _ _ _ hne]
    exact h

/-- A successful `os.WriteFile` leaves a regular file with the written
content at the path it was given; the file is readable when it is new. -/
theorem osWriteFile_ok (fs : FS) (name data : String) (fault : Option Nat)
    (h : (osWriteFile fs name data fault).2 = none) :
    ∃ c parent, resolve fs name = .ok (c :: parent) ∧
      resolve (osWriteFile fs name data fault).1 name = .ok (c :: parent) ∧
      ((lookupNode fs (c :: parent) = none ∧
          (osWriteFile fs name data fault).1 =
            setNode fs (c :: parent) (Node.file data true true)) ∨
        (∃ old r, lookupNode fs (c :: parent) = some (Node.file old r true) ∧
          (osWriteFile fs name data fault).1 =
            setNode fs (c :: parent) (Node.file data r true))) := by
  rcases osWriteFile_cases fs name data fault with ⟨-, hne⟩ | ⟨c, parent, r, hres, hcase, hw⟩
  · exact absurd h hne
  · rw [hw] at h ⊢
    obtain ⟨-, hfs⟩ := writeOpened_ok fs (c :: parent) r data fault h
    have hnd : ∀ l wr, lookupNode fs (c :: parent) ≠ some (Node.dir l wr) := by
      intro l wr hl
      rcases hcase with ⟨hnone, -⟩ | ⟨old, hold⟩
      · rw [hnone] at hl; cases hl
      · rw [hold] at hl; cases hl
    refine ⟨c, parent, hres, ?_, ?_⟩
    · rw [hfs]
      exact resolve_setNode fs _ _ hnd name _ hres
    · rcases hcase with ⟨hnone, hr, -⟩ | ⟨old, hold⟩
      · subst hr
        exact Or.inl ⟨hnone, hfs⟩
      · exact Or.inr ⟨old, r, hold, hfs⟩

theorem osStat_after_osWriteFile (fs : FS) (name data : String) (fault : Option Nat)
    (h : (osWriteFile fs name data fault).2 = none) :
    ∃ r, osStat (osWriteFile fs name data fault).1 name = .ok (Node.file data r true) := by
  obtain ⟨c, parent, -, hres, hcase⟩ := osWriteFile_ok fs name data fault h
  rcases hcase with ⟨-, hfs⟩ | ⟨old, r, -, hfs⟩
  · refine ⟨true, ?_⟩
    unfold osStat
    rw [hres]
    simp only []
    rw [hfs, lookupNode_setNode_same]
  · refine ⟨r, ?_⟩
    unfold osStat
    rw [hres]
    simp only []
    rw [hfs, lookupNode_setNode_same]

/-! ## Path names of cache entries -/

theorem splitChars_of_no_slash (l : List Char) (h : '/' ∉ l) : splitChars l = [l] := by
  induction l with
  | nil => rfl
  | cons c cs ih =>
    have hc : c ≠ '/' := fun hc => h (by simp [hc])
    have hcs : '/' ∉ cs := fun hcs => h (List.mem_cons_of_mem _ hcs)
    simp [splitChars, hc, ih hcs]

theorem splitChars_append_slash (a b : List Char) (h : '/' ∉ a) :
    splitChars (a ++ '/' :: b) = a :: splitChars b := by
  induction a with
  | nil => simp [splitChars]
  | cons c cs ih =>
    have hc : c ≠ '/' := fun hc => h (by simp [hc])
    have hcs : '/' ∉ cs := fun hcs => h (List.mem_cons_of_mem _ hcs)
    simp [splitChars, hc, ih hcs]

theorem entry_no_slash (n : String) (h : '/' ∉ n.data) : '/' ∉ n.data ++ ".xml".data := by
  intro hm
  rcases List.mem_append.1 hm with hm | hm
  · exact h hm
  · revert hm; decide

theorem splitPath_write_name (n : String) (h : '/' ∉ n.data) :
    splitPath ("cache-inschrijvingen/" ++ n ++ ".xml") = ["cache-inschrijvingen", n ++ ".xml"] := by
  have hd : ("cache-inschrijvingen/" ++ n ++ ".xml").data =
      "cache-inschrijvingen".data ++ '/' :: (n.data ++ ".xml".data) := by simp
  unfold splitPath
  rw [hd, splitChars_append_slash _ _ (by decide),
    splitChars_of_no_slash _ (entry_no_slash n h)]
  simp only [List.map_cons, List.map_nil, List.cons.injEq, and_true]
  exact ⟨trivial, String.ext (by simp)⟩

theorem splitPath_read_name (n : String) (h : '/' ∉ n.data) :
    splitPath ("./cache-inschrijvingen/" ++ (n ++ ".xml")) =
      [".", "cache-inschrijvingen", n ++ ".xml"] := by
  have hd : ("./cache-inschrijvingen/" ++ (n ++ ".xml")).data =
      ".".data ++ '/' :: ("cache-inschrijvingen".data ++ '/' :: (n.data ++ ".xml".data)) := by
    simp
  unfold splitPath
  rw [hd, splitChars_append_slash _ _ (by decide), splitChars_append_slash _ _ (by decide),
    splitChars_of_no_slash _ (entry_no_slash n h)]
  simp only [List.map_cons, List.map_nil, List.cons.injEq, and_true]
  exact ⟨trivial, trivial, String.ext (by simp)⟩

theorem entry_name_ne (n : String) :
    ¬ (n ++ ".xml" = "" ∨ n ++ ".xml" = ".") ∧ n ++ ".xml" ≠ ".." := by
  refine ⟨?_, ?_⟩
  · rintro (h | h) <;>
    · have := congrArg (fun s => s.data.length) h
      simp at this
  · intro h
    have := congrArg (fun s => s.data.length) h
    simp at this

theorem byteLen_append (a b : String) : byteLen (a ++ b) = byteLen a + byteLen b := by
  simp [byteLen]

theorem cachePath_short : ¬ 255 < byteLen "cache-inschrijvingen" := by decide

theorem resolve_eq_walk (fs : FS) (name : String) (h1 : name ≠ "")
    (h2 : (name.data.any fun c => decide (c = Char.ofNat 0)) = false)
    (h4 : byteLen name < 4096)
    (h3 : name.data.head? ≠ some '/') : resolve fs name = walk fs [] (splitPath name) := by
  unfold resolve
  simp [h1, h2, h3, Nat.not_le.2 h4]

theorem resolve_ok_facts (fs : FS) (name : String) (q : Path) (h : resolve fs name = .ok q) :
    (name.data.any fun c => decide (c = Char.ofNat 0)) = false ∧ byteLen name < 4096 := by
  unfold resolve at h
  by_cases h1 : name = ""
  · simp [h1] at h
  · simp only [h1, if_false] at h
    cases h2 : (name.data.any fun c => decide (c = Char.ofNat 0)) with
    | true => simp [h2] at h
    | false =>
      refine ⟨rfl, ?_⟩
      by_cases h4 : 4096 ≤ byteLen name
      · simp [h2, h4] at h
      · exact Nat.not_le.1 h4

/-- Where the name of a cache entry leads: through the working directory and
the cache directory, both of which have to be directories; the entry name
has to fit the limit of 255 bytes. -/
theorem walk_entry (fs : FS) (e : String) (q : Path)
    (he : ¬ (e = "" ∨ e = ".")) (he2 : e ≠ "..") :
    walk fs [] ["cache-inschrijvingen", e] = .ok q ↔
      (∃ l wr, lookupNode fs [] = some (Node.dir l wr)) ∧
      (∃ l wr, lookupNode fs ["cache-inschrijvingen"] = some (Node.dir l wr)) ∧
      byteLen e ≤ 255 ∧ q = [e, "cache-inschrijvingen"] := by
  have hcp : ¬ ("cache-inschrijvingen" = "" ∨ "cache-inschrijvingen" = ".") := by decide
  have hcp2 : "cache-inschrijvingen" ≠ ".." := by decide
  unfold walk
  cases h0 : lookupNode fs [] with
  | none => simp
  | some node0 =>
    cases node0 with
    | file content r wr => simp
    | dir l0 w0 =>
      simp only [hcp, hcp2, cachePath_short, if_false]
      unfold walk
      cases h1 : lookupNode fs ["cache-inschrijvingen"] with
      | none => simp
      | some node1 =>
        cases node1 with
        | file content r wr => simp
        | dir l1 w1 =>
          simp only [he, he2, if_false]
          by_cases hlen : 255 < byteLen e
          · simp [hlen]
          · simp [hlen, walk, eq_comm, Nat.not_lt.1 hlen]

theorem splitPath_cachePath : splitPath "cache-inschrijvingen" = ["cache-inschrijvingen"] := by
  decide

theorem splitPath_cacheDir :
    splitPath "./cache-inschrijvingen/" = [".", "cache-inschrijvingen", ""] := by
  decide

theorem resolve_cachePath (fs : FS) :
    resolve fs "cache-inschrijvingen" = walk fs [] ["cache-inschrijvingen"] := by
  rw [resolve_eq_walk fs _ (by decide) (by decide) (by decide) (by decide), splitPath_cachePath]

theorem resolve_cacheDir (fs : FS) :
    resolve fs "./cache-inschrijvingen/" = walk fs [] [".", "cache-inschrijvingen", ""] := by
  rw [resolve_eq_walk fs _ (by decide) (by decide) (by decide) (by decide), splitPath_cacheDir]

/-- The directory step either leaves the tree alone or binds the missing
cache directory to a fresh listable, writable directory; the latter happens
whenever the cache directory is missing from a writable working directory. -/
theorem ensureCacheDir_cases (fs : FS) :
    (ensureCacheDir fs "cache-inschrijvingen" = fs ∧
      ¬ (lookupNode fs ["cache-inschrijvingen"] = none ∧
        ∃ l, lookupNode fs [] = some (Node.dir l true))) ∨
      (lookupNode fs ["cache-inschrijvingen"] = none ∧
        (∃ l, lookupNode fs [] = some (Node.dir l true)) ∧
        ensureCacheDir fs "cache-inschrijvingen" =
          setNode fs ["cache-inschrijvingen"] (Node.dir true true)) := by
  have hcp : ¬ ("cache-inschrijvingen" = "" ∨ "cache-inschrijvingen" = ".") := by decide
  have hcp2 : "cache-inschrijvingen" ≠ ".." := by decide
  have hmk : osMkdirAll fs "cache-inschrijvingen" =
      mkdirWalk fs [] ["cache-inschrijvingen"] := by
    unfold osMkdirAll
    rw [splitPath_cachePath]
    simp only [show ¬ ("cache-inschrijvingen" = "") by decide, if_false]
    rw [if_neg (by decide), if_neg (by decide), if_neg (by decide)]
  have hst : osStat fs "cache-inschrijvingen" =
      match walk fs [] ["cache-inschrijvingen"] with
      | .error e => .error e
      | .ok p =>
        match lookupNode fs p with
        | some nd => .ok nd
        | none => .error .ENOENT := by
    unfold osStat
    rw [resolve_cachePath]
  unfold ensureCacheDir
  rw [hst, hmk]
  unfold walk mkdirWalk
  cases h0 : lookupNode fs [] with
  | none => left; simp [osIsNotExist]
  | some node0 =>
    cases node0 with
    | file content r wr => left; simp [osIsNotExist]
    | dir l0 w0 =>
      simp only [hcp, hcp2, cachePath_short, if_false, walk]
      cases h1 : lookupNode fs ["cache-inschrijvingen"] with
      | some node1 => left; simp [osIsNotExist]
      | none =>
        cases w0 with
        | false => left; simp [osIsNotExist]
        | true =>
          right
          refine ⟨rfl, ⟨l0, rfl⟩, ?_⟩
          simp [osIsNotExist, mkdirWalk, lookupNode_setNode_same]

theorem entryOf_Name (name : String) (nd : Node) : (entryOf name nd).Name = name := by
  cases nd <;> rfl

theorem stringsHasPrefix_entry (n : String) : stringsHasPrefix (n ++ ".xml") n = true := by
  simp [stringsHasPrefix]

theorem write_name_facts (n : String) :
    "cache-inschrijvingen/" ++ n ++ ".xml" ≠ "" ∧
      ("cache-inschrijvingen/" ++ n ++ ".xml").data.head? ≠ some '/' ∧
      byteLen ("cache-inschrijvingen/" ++ n ++ ".xml") = 21 + byteLen (n ++ ".xml") := by
  have hd : ("cache-inschrijvingen/" ++ n ++ ".xml").data =
      'c' :: ("ache-inschrijvingen/".data ++ n.data ++ ".xml".data) := by simp
  refine ⟨?_, ?_, ?_⟩
  · intro h
    have := congrArg String.data h
    rw [hd] at this
    simp at this
  · rw [hd]
    simp
  · have h21 : byteLen "cache-inschrijvingen/" = 21 := by decide
    rw [String.append_assoc, byteLen_append, h21]

theorem read_name_facts (n : String) :
    "./cache-inschrijvingen/" ++ (n ++ ".xml") ≠ "" ∧
      ("./cache-inschrijvingen/" ++ (n ++ ".xml")).data.head? ≠ some '/' ∧
      byteLen ("./cache-inschrijvingen/" ++ (n ++ ".xml")) = 23 + byteLen (n ++ ".xml") := by
  have hd : ("./cache-inschrijvingen/" ++ (n ++ ".xml")).data =
      '.' :: ("/cache-inschrijvingen/".data ++ (n.data ++ ".xml".data)) := by simp
  refine ⟨?_, ?_, ?_⟩
  · intro h
    have := congrArg String.data h
    rw [hd] at this
    simp at this
  · rw [hd]
    simp
  · have h23 : byteLen "./cache-inschrijvingen/" = 23 := by decide
    rw [byteLen_append, h23]

theorem write_name_nul (n : String) :
    (("cache-inschrijvingen/" ++ n ++ ".xml").data.any
      fun c => decide (c = Char.ofNat 0)) = (n.data.any fun c => decide (c = Char.ofNat 0)) := by
  have hd : ("cache-inschrijvingen/" ++ n ++ ".xml").data =
      "cache-inschrijvingen/".data ++ (n.data ++ ".xml".data) := by simp
  have h1 : ("cache-inschrijvingen/".data.any fun c => decide (c = Char.ofNat 0)) = false := by
    decide
  have h2 : (".xml".data.any fun c => decide (c = Char.ofNat 0)) = false := by decide
  rw [hd, List.any_append, List.any_append, h1, h2]
  simp

theorem read_name_nul (n : String) :
    (("./cache-inschrijvingen/" ++ (n ++ ".xml")).data.any
      fun c => decide (c = Char.ofNat 0)) = (n.data.any fun c => decide (c = Char.ofNat 0)) := by
  have hd : ("./cache-inschrijvingen/" ++ (n ++ ".xml")).data =
      "./cache-inschrijvingen/".data ++ (n.data ++ ".xml".data) := by simp
  have h1 : ("./cache-inschrijvingen/".data.any fun c => decide (c = Char.ofNat 0)) = false := by
    decide
  have h2 : (".xml".data.any fun c => decide (c = Char.ofNat 0)) = false := by decide
  rw [hd, List.any_append, List.any_append, h1, h2]
  simp

/-- Where the name written by the cache write resolves to, for a registry
number that is a plain file name. -/
theorem resolve_write_name (fs : FS) (n : String) (l0 w0 l1 w1 : Bool)
    (hplain : '/' ∉ n.data)
    (hnul : (n.data.any fun c => decide (c = Char.ofNat 0)) = false)
    (hlen : byteLen (n ++ ".xml") ≤ 255)
    (h0 : lookupNode fs [] = some (Node.dir l0 w0))
    (h1 : lookupNode fs ["cache-inschrijvingen"] = some (Node.dir l1 w1)) :
    resolve fs ("cache-inschrijvingen/" ++ n ++ ".xml") =
      .ok [n ++ ".xml", "cache-inschrijvingen"] := by
  obtain ⟨hne, hhead, hbl⟩ := write_name_facts n
  obtain ⟨he, he2⟩ := entry_name_ne n
  rw [resolve_eq_walk fs _ hne (by rw [write_name_nul]; exact hnul) (by omega) hhead,
    splitPath_write_name n hplain]
  exact (walk_entry fs (n ++ ".xml") _ he he2).2 ⟨⟨l0, w0, h0⟩, ⟨l1, w1, h1⟩, hlen, rfl⟩

/-- Where the name read by the cache lookup resolves to. -/
theorem resolve_read_name (fs : FS) (n : String) (l0 w0 l1 w1 : Bool)
    (hplain : '/' ∉ n.data)
    (hnul : (n.data.any fun c => decide (c = Char.ofNat 0)) = false)
    (hlen : byteLen (n ++ ".xml") ≤ 255)
    (h0 : lookupNode fs [] = some (Node.dir l0 w0))
    (h1 : lookupNode fs ["cache-inschrijvingen"] = some (Node.dir l1 w1)) :
    resolve fs ("./cache-inschrijvingen/" ++ (n ++ ".xml")) =
      .ok [n ++ ".xml", "cache-inschrijvingen"] := by
  obtain ⟨hne, hhead, hbl⟩ := read_name_facts n
  obtain ⟨he, he2⟩ := entry_name_ne n
  have hcp : ¬ ("cache-inschrijvingen" = "" ∨ "cache-inschrijvingen" = ".") := by decide
  have hcp2 : "cache-inschrijvingen" ≠ ".." := by decide
  rw [resolve_eq_walk fs _ hne (by rw [read_name_nul]; exact hnul) (by omega) hhead,
    splitPath_read_name n hplain]
  simp [walk, h0, h1, hcp, hcp2, he, he2, cachePath_short, Nat.not_lt.2 hlen]

/-- After a successful write of the entry of a registry number without path
separator into a listable cache directory that held no entry starting with
that number, the lookup finds the written entry and reading it yields the
written bytes. -/
theorem lookup_after_store (fs1 : FS) (n b : String) (fault : Option Nat)
    (hplain : '/' ∉ n.data)
    (hlist : ∀ l wr, lookupNode fs1 ["cache-inschrijvingen"] = some (Node.dir l wr) → l = true)
    (hfresh : ∀ f ∈ children ["cache-inschrijvingen"] fs1, stringsHasPrefix f.Name n = false)
    (hwrite : (osWriteFile fs1 ("cache-inschrijvingen/" ++ n ++ ".xml") b fault).2 = none) :
    getFilePath (osWriteFile fs1 ("cache-inschrijvingen/" ++ n ++ ".xml") b fault).1 n =
        "./cache-inschrijvingen/" ++ (n ++ ".xml") ∧
      osReadFile (osWriteFile fs1 ("cache-inschrijvingen/" ++ n ++ ".xml") b fault).1
        ("./cache-inschrijvingen/" ++ (n ++ ".xml")) = .ok b := by
  have hok := osWriteFile_ok fs1 _ b fault hwrite
  revert hok
  generalize (osWriteFile fs1 ("cache-inschrijvingen/" ++ n ++ ".xml") b fault).1 = fs2
  rintro ⟨c, parent, hres1, -, hcase⟩
  obtain ⟨hnulw, hlenw⟩ := resolve_ok_facts fs1 _ _ hres1
  have hnul : (n.data.any fun c => decide (c = Char.ofNat 0)) = false := by
    rw [← write_name_nul]; exact hnulw
  obtain ⟨he, he2⟩ := entry_name_ne n
  have hcp : ¬ ("cache-inschrijvingen" = "" ∨ "cache-inschrijvingen" = ".") := by decide
  have hcp2 : "cache-inschrijvingen" ≠ ".." := by decide
  have hw : walk fs1 [] ["cache-inschrijvingen", n ++ ".xml"] = .ok (c :: parent) := by
    rw [← splitPath_write_name n hplain,
      ← resolve_eq_walk fs1 _ (write_name_facts n).1 hnulw hlenw (write_name_facts n).2.1]
    exact hres1
  obtain ⟨⟨l0, w0, h0⟩, ⟨l1, w1, h1⟩, hlen, hq⟩ := (walk_entry fs1 (n ++ ".xml") _ he he2).1 hw
  simp only [List.cons.injEq] at hq
  obtain ⟨hc, hparent⟩ := hq
  subst hc hparent
  have hl1 : l1 = true := hlist l1 w1 h1
  subst hl1
  have hnone : lookupNode fs1 [n ++ ".xml", "cache-inschrijvingen"] = none := by
    cases hl : lookupNode fs1 [n ++ ".xml", "cache-inschrijvingen"] with
    | none => rfl
    | some nd =>
      have hmem := mem_children_of_lookup ["cache-inschrijvingen"] fs1 (n ++ ".xml") nd hl
      have hpre := hfresh _ hmem
      rw [entryOf_Name, stringsHasPrefix_entry] at hpre
      cases hpre
  have hfs2 : fs2 = setNode fs1 [n ++ ".xml", "cache-inschrijvingen"]
      (Node.file b true true) := by
    rcases hcase with ⟨-, h⟩ | ⟨old, r, h, -⟩
    · exact h
    · rw [hnone] at h; cases h
  have h0' : lookupNode fs2 [] = some (Node.dir l0 w0) := by
    rw [hfs2, lookupNode_setNode_ne _ _ _ _ (by simp), h0]
  have h1' : lookupNode fs2 ["cache-inschrijvingen"] = some (Node.dir true w1) := by
    rw [hfs2, lookupNode_setNode_ne _ _ _ _ (by simp), h1]
  have ht : lookupNode fs2 [n ++ ".xml", "cache-inschrijvingen"] =
      some (Node.file b true true) := by
    rw [hfs2, lookupNode_setNode_same]
  have hchildren : children ["cache-inschrijvingen"] fs2 =
      children ["cache-inschrijvingen"] fs1 ++ [⟨n ++ ".xml", false⟩] := by
    rw [hfs2, setNode_of_lookup_none _ _ _ hnone, children_append_child]
    rfl
  have hdir : ioutilReadDir fs2 "./cache-inschrijvingen/" =
      .ok (sortByName (children ["cache-inschrijvingen"] fs2)) := by
    unfold ioutilReadDir
    rw [resolve_cacheDir]
    simp [walk, h0', h1', hcp, hcp2, cachePath_short]
  refine ⟨?_, ?_⟩
  · unfold getFilePath getFilePathFrom
    rw [hdir]
    simp only []
    have := getFilePathLoop_unique "./cache-inschrijvingen/" n
      (sortByName (children ["cache-inschrijvingen"] fs2)) ⟨n ++ ".xml", false⟩
      (by rw [mem_sortByName, hchildren]; simp) rfl (stringsHasPrefix_entry n)
      (by
        intro g hg _ hgp
        rw [mem_sortByName, hchildren, List.mem_append, List.mem_singleton] at hg
        rcases hg with hg | hg
        · rw [hfresh g hg] at hgp; cases hgp
        · exact hg)
    exact this
  · unfold osReadFile
    rw [resolve_read_name fs2 n l0 w0 true w1 hplain hnul hlen h0' h1']
    simp [ht]

/-! ## The cache lookup `getFilePath` -/

/-- C7: for every registry number and every outcome of listing the cache
directory, `getFilePath` returns the empty string when the directory cannot
be listed or no entry that is not a directory has a name starting with the
registry number, and otherwise `"./cache-inschrijvingen/"` followed by the
name of the first entry, in listing order, that is not a directory and whose
name starts with the registry number. -/
theorem getFilePath_first_match (n : String) :
    (∀ listing : Except Errno (List FileInfo),
      getFilePathFrom listing n =
        match listing with
        | .error _ => ""
        | .ok files =>
          match files.find? (fun f => !f.IsDir && stringsHasPrefix f.Name n) with
          | none => ""
          | some f => "./cache-inschrijvingen/" ++ f.Name) ∧
    (∀ fs : FS,
      getFilePath fs n =
        match ioutilReadDir fs "./cache-inschrijvingen/" with
        | .error _ => ""
        | .ok files =>
          match files.find? (fun f => !f.IsDir && stringsHasPrefix f.Name n) with
          | none => ""
          | some f => "./cache-inschrijvingen/" ++ f.Name) := by
  exact ⟨fun listing => getFilePathFrom_eq_find listing n,
    fun fs => getFilePathFrom_eq_find (ioutilReadDir fs "./cache-inschrijvingen/") n⟩

/-! ## Classification of the reply -/

/-- C2: when a call reaches the transport, the transport returns no error,
the status is 200 and the deserialised response carries a fault with code
`c` and description `D`, the call returns no response and an error; the
error is the sentinel `ErrInschrijvingNotFound` exactly when `c` is
`"IPD0004"`, and for every other code it is a fresh error whose text is `D`. -/
theorem fault_code_mapping (w : World) (fs : FS) (u n cert key : String)
    (useCache : Bool) (env : String) (req : Request) (body : String)
    (resp : OphalenInschrijvingResponse) (c D : String)
    (hreach : Event.soapDo cert key req ∈ (GetInschrijving w fs u n cert key useCache env).trace)
    (hdo : w.Do cert key req = .ok ({ StatusCode := 200, RespBody := body }, resp))
    (hfault : resp.Meldingen.Fout = some { Code := c, Omschrijving := D }) :
    ∃ e, (GetInschrijving w fs u n cert key useCache env).outcome = .returned none (some e) ∧
      (e = GoError.ErrInschrijvingNotFound ↔ c = "IPD0004") ∧
      (c ≠ "IPD0004" → e = GoError.errorsNew D ∧ e.Error = D) := by
  obtain ⟨hmiss, hc, hk, -, -, wsse, hauth, hreq⟩ :=
    (soapDo_mem_trace_iff w fs u n cert key useCache env cert key req).1 hreach
  subst hreq
  have hck : ¬ (cert = "" ∨ key = "") := by
    rintro (h | h) <;> contradiction
  rw [GetInschrijving_of_miss w fs u n cert key useCache env hmiss]
  unfold fetchInschrijving
  simp only [hck, if_false, hauth, hdo, hfault, ne_eq, not_true_eq_false]
  by_cases hcode : c = "IPD0004"
  · exact ⟨GoError.ErrInschrijvingNotFound, by simp [hcode], by simp [hcode],
      fun h => absurd hcode h⟩
  · exact ⟨GoError.errorsNew D, by simp [hcode], by simp [hcode], fun _ => ⟨rfl, rfl⟩⟩

/-- Witness for C2: a fault with code `"IPD0001"` and description `"storing"`
on a dispatched request. -/
theorem fault_code_mapping_witness :
    ∃ e, (GetInschrijving
        (demoWorld (.ok ({ StatusCode := 200, RespBody := "<r/>" },
          { Meldingen := { Fout := some { Code := "IPD0001", Omschrijving := "storing" } },
            Product := "", InschrijvingXML := "" })))
        fsNoCache "u" "123" "c" "k" false "prd").outcome = .returned none (some e) ∧
      (e = GoError.ErrInschrijvingNotFound ↔ "IPD0001" = "IPD0004") ∧
      ("IPD0001" ≠ "IPD0004" → e = GoError.errorsNew "storing" ∧ e.Error = "storing") :=
  fault_code_mapping
    (demoWorld (.ok ({ StatusCode := 200, RespBody := "<r/>" },
      { Meldingen := { Fout := some { Code := "IPD0001", Omschrijving := "storing" } },
        Product := "", InschrijvingXML := "" })))
    fsNoCache "u" "123" "c" "k" false "prd"
    (buildRequest "u" "123" "prd" { certificate := "c", key := "k" })
    "<r/>" _ "IPD0001" "storing" (by decide) rfl rfl

/-- C3: with a reply of status 500 and no transport error, on a dispatched
request, the call returns a nil response together with a nil error. -/
theorem status_500_returns_nil_nil :
    Event.soapDo "c" "k" (buildRequest "u" "123" "prd" { certificate := "c", key := "k" }) ∈
      (GetInschrijving (demoWorld (.ok ({ StatusCode := 500, RespBody := "" }, demoResponse)))
        fsNoCache "u" "123" "c" "k" false "prd").trace ∧
    (GetInschrijving (demoWorld (.ok ({ StatusCode := 500, RespBody := "" }, demoResponse)))
      fsNoCache "u" "123" "c" "k" false "prd").outcome = .returned none none := by
  decide

/-! ## Missing credentials -/

/-- C4: when the cache does not answer (caching is off, or the file named by
the lookup cannot be read) and the certificate or the key is empty, the call
returns no response and the missing-credential error; the file tree is left
as it was, and the only effects are those of the lookup: no signing, no
request, no transport, no cache write. -/
theorem missing_credentials_fail_fast (w : World) (fs : FS) (u n cert key : String)
    (useCache : Bool) (env : String)
    (hmiss : cacheMiss fs n useCache) (hcred : cert = "" ∨ key = "") :
    (GetInschrijving w fs u n cert key useCache env).outcome =
      .returned none (some (GoError.errorsNew
        "no certificate or private key, so no connection possible with HRDS")) ∧
    (GetInschrijving w fs u n cert key useCache env).fs = fs ∧
    (GetInschrijving w fs u n cert key useCache env).trace =
      (if useCache then
        [Event.readDir "./cache-inschrijvingen/", Event.readFile (getFilePath fs n)]
      else []) ∧
    (∀ req, Event.newRequest req ∉ (GetInschrijving w fs u n cert key useCache env).trace) ∧
    (∀ c k req, Event.soapDo c k req ∉ (GetInschrijving w fs u n cert key useCache env).trace) ∧
    (∀ ev ∈ (GetInschrijving w fs u n cert key useCache env).trace, ev.isCacheWrite = false) := by
  rw [GetInschrijving_of_miss w fs u n cert key useCache env hmiss]
  unfold fetchInschrijving
  simp only [hcred, if_true]
  refine ⟨trivial, trivial, trivial, ?_, ?_, ?_⟩ <;> cases useCache <;> simp [Event.isCacheWrite]

/-- Witness for C4: caching on, no cache directory, empty credentials. -/
theorem missing_credentials_fail_fast_witness :
    (GetInschrijving (demoWorld (.error "unreachable")) fsNoCache "u" "123" "" "" true "").outcome =
      .returned none (some (GoError.errorsNew
        "no certificate or private key, so no connection possible with HRDS")) :=
  (missing_credentials_fail_fast (demoWorld (.error "unreachable")) fsNoCache "u" "123" "" ""
    true "" (by decide) (Or.inl rfl)).1

/-! ## Environment selection -/

/-- C6: every request a call dispatches goes to the production URL with the
production destination address when `env` is `"prd"`, and to the
pre-production URL with the pre-production destination address for every
other `env`; it carries exactly one destination header. -/
theorem environment_selects_endpoint_pair (w : World) (fs : FS) (u n cert key : String)
    (useCache : Bool) (env : String) (c k : String) (req : Request)
    (hreq : Event.soapDo c k req ∈ (GetInschrijving w fs u n cert key useCache env).trace) :
    (req.url, req.toAddresses) =
      if env = "prd" then
        ("https://webservices.kvk.nl/postbus2", ["http://es.kvk.nl/KVK-Dataservice/2015/02"])
      else
        ("https://webservices.preprod.kvk.nl/postbus2",
          ["http://es.kvk.nl/KVK-DataservicePP/2015/02"]) := by
  obtain ⟨-, -, -, -, -, wsse, -, hr⟩ :=
    (soapDo_mem_trace_iff w fs u n cert key useCache env c k req).1 hreq
  subst hr
  by_cases henv : env = "prd" <;> simp [buildRequest, Request.toAddresses, henv]

/-- Witness for C6: a call for the environment `"acc"` dispatches to the
pre-production pair. -/
theorem environment_selects_endpoint_pair_witness :
    ((buildRequest "u" "123" "acc" { certificate := "c", key := "k" }).url,
      (buildRequest "u" "123" "acc" { certificate := "c", key := "k" }).toAddresses) =
      ("https://webservices.preprod.kvk.nl/postbus2",
        ["http://es.kvk.nl/KVK-DataservicePP/2015/02"]) :=
  environment_selects_endpoint_pair (demoWorld (.ok ({ StatusCode := 200, RespBody := "<r/>" },
    demoResponse))) fsNoCache "u" "123" "c" "k" false "acc" "c" "k"
    (buildRequest "u" "123" "acc" { certificate := "c", key := "k" }) (by decide)

/-! ## Cache failures are absorbed -/

/-- C8: when caching is on and the lookup does not answer (no entry found, or
the entry found cannot be read), the pair returned by the call is the pair
returned for the same inputs and collaborators with caching off, whatever
the file tree does with the later cache write. -/
theorem cache_failures_not_surfaced (w : World) (fs : FS) (u n cert key env : String)
    (hmiss : ∃ e, osReadFile fs (getFilePath fs n) = .error e) :
    (GetInschrijving w fs u n cert key true env).outcome =
      (GetInschrijving w fs u n cert key false env).outcome := by
  obtain ⟨e, he⟩ := hmiss
  rw [GetInschrijving_of_miss w fs u n cert key true env (cacheMiss_of_error fs n true e he),
    GetInschrijving_of_miss w fs u n cert key false env (cacheMiss_of_off fs n),
    fetchInschrijving_outcome]
  rfl

/-- Witness for C8: the cache directory is a regular file, so the lookup
fails and the later cache write fails as well. -/
theorem cache_failures_not_surfaced_witness :
    (GetInschrijving (demoWorld (.ok ({ StatusCode := 200, RespBody := "<r/>" }, demoResponse)))
      [([], Node.dir true true), (["cache-inschrijvingen"], Node.file "" true true)]
      "u" "123" "c" "k" true "prd").outcome =
    (GetInschrijving (demoWorld (.ok ({ StatusCode := 200, RespBody := "<r/>" }, demoResponse)))
      [([], Node.dir true true), (["cache-inschrijvingen"], Node.file "" true true)]
      "u" "123" "c" "k" false "prd").outcome :=
  cache_failures_not_surfaced _ _ "u" "123" "c" "k" "prd" ⟨Errno.ENOENT, by decide⟩

/-! ## The cache is written only on a clean network success -/

/-- C10: if caching is off, or the call is served from the cache, or a
credential is missing, or the signing step fails, or the transport returns an
error, or the reply has a status other than 200, or the reply carries a
fault, then the file tree after the call is the file tree before it, and the
call neither creates the cache directory nor writes an entry. -/
theorem cache_untouched_unless_clean_success (w : World) (fs : FS) (u n cert key : String)
    (useCache : Bool) (env : String)
    (h : useCache = false ∨ cacheMiss fs n useCache = false ∨ cert = "" ∨ key = "" ∨
      (∃ e, w.NewWSSEAuthInfo cert key = .error e) ∨
      (∃ wsse, w.NewWSSEAuthInfo cert key = .ok wsse ∧
        ((∃ e, w.Do cert key (buildRequest u n env wsse) = .error e) ∨
          ∃ r resp, w.Do cert key (buildRequest u n env wsse) = .ok (r, resp) ∧
            (r.StatusCode ≠ 200 ∨ resp.Meldingen.Fout ≠ none)))) :
    (GetInschrijving w fs u n cert key useCache env).fs = fs ∧
    ∀ ev ∈ (GetInschrijving w fs u n cert key useCache env).trace, ev.isCacheWrite = false := by
  by_cases hmiss : cacheMiss fs n useCache
  · rw [GetInschrijving_of_miss w fs u n cert key useCache env hmiss]
    have htrace : ∀ ev ∈ (if useCache then
        [Event.readDir "./cache-inschrijvingen/", Event.readFile (getFilePath fs n)]
        else []), ev.isCacheWrite = false := by
      cases useCache <;> simp [Event.isCacheWrite]
    rcases fetchInschrijving_frame w fs u n cert key useCache env _ htrace with hf | hf
    · exact hf
    · obtain ⟨huc, hc, hk, wsse, r, resp, hauth, hdo, hst, hfout⟩ := hf
      exfalso
      rcases h with h | h | h | h | ⟨e, h⟩ | ⟨wsse2, hauth2, h⟩
      · rw [huc] at h; cases h
      · rw [hmiss] at h; cases h
      · exact hc h
      · exact hk h
      · rw [hauth] at h; cases h
      · rw [hauth] at hauth2
        cases hauth2
        rcases h with ⟨e, h⟩ | ⟨r2, resp2, h, hbad⟩
        · rw [hdo] at h; cases h
        · rw [hdo] at h
          cases h
          rcases hbad with hbad | hbad
          · exact hbad hst
          · exact hbad hfout
  · have huc : useCache = true := by
      cases useCache with
      | false => exact absurd (cacheMiss_of_off fs n) hmiss
      | true => rfl
    subst huc
    cases hread : osReadFile fs (getFilePath fs n) with
    | error e => exact absurd (cacheMiss_of_error fs n true e hread) hmiss
    | ok d =>
      rw [GetInschrijving_of_hit w fs u n cert key env d hread]
      cases w.xmlUnmarshal d <;> simp [Event.isCacheWrite]

/-- Witness for C10: a reply of status 204 with caching on leaves a tree
without cache directory as it is; the call returns a nil response. -/
theorem cache_untouched_unless_clean_success_witness :
    (GetInschrijving (demoWorld (.ok ({ StatusCode := 204, RespBody := "" }, demoResponse)))
      fsNoCache "u" "123" "c" "k" true "prd").fs = fsNoCache ∧
    (GetInschrijving (demoWorld (.ok ({ StatusCode := 204, RespBody := "" }, demoResponse)))
      fsNoCache "u" "123" "c" "k" true "prd").outcome = .returned none none :=
  ⟨(cache_untouched_unless_clean_success
    (demoWorld (.ok ({ StatusCode := 204, RespBody := "" }, demoResponse)))
    fsNoCache "u" "123" "c" "k" true "prd"
    (Or.inr (Or.inr (Or.inr (Or.inr (Or.inr
      ⟨{ certificate := "c", key := "k" }, rfl,
        Or.inr ⟨{ StatusCode := 204, RespBody := "" }, demoResponse, rfl,
          Or.inl (by decide)⟩⟩)))))).1, by decide⟩

/-! ## Cache hit -/

/-- C1 as stated fails: with two readable, deserialisable entries
`123-a.xml` and `123-b.xml` for registry number `123`, the entry
`"123" ++ "-b" ++ ".xml"` holds `<b/>`, but the call returns the document
`<a/>` of the entry that comes first in the listing. -/
theorem cache_hit_any_entry_counterexample :
    ¬ ∀ (w : World) (fs : FS) (u n s cert key env d : String) (files : List FileInfo),
      ioutilReadDir fs "./cache-inschrijvingen/" = .ok files →
      ({ Name := n ++ s ++ ".xml", IsDir := false } : FileInfo) ∈ files →
      osReadFile fs ("./cache-inschrijvingen/" ++ (n ++ s ++ ".xml")) = .ok d →
      (∃ r, w.xmlUnmarshal d = some r) →
      (∃ resp, (GetInschrijving w fs u n cert key true env).outcome =
          .returned (some resp) none ∧ resp.InschrijvingXML = d) ∧
        ∀ c k req, Event.soapDo c k req ∉ (GetInschrijving w fs u n cert key true env).trace := by
  intro h
  obtain ⟨⟨resp, hout, hxml⟩, -⟩ :=
    h (demoWorld (.error "unreachable")) fsTwoEntries "u" "123" "-b" "" "" "" "<b/>"
      [⟨"123-a.xml", false⟩, ⟨"123-b.xml", false⟩] (by decide) (by decide) (by decide)
      ⟨demoResponse, rfl⟩
  have hv : (GetInschrijving (demoWorld (.error "unreachable")) fsTwoEntries
      "u" "123" "" "" true "").outcome =
      .returned (some { demoResponse with InschrijvingXML := "<a/>" }) none := by decide
  rw [hv] at hout
  simp only [Outcome.returned.injEq, Option.some.injEq, and_true] at hout
  subst hout
  revert hxml
  decide

/-- C1, amended: when the first entry of the cache directory, in listing
order, that is not a directory and whose name starts with the registry
number can be read and its content `d` deserialises, the call with caching on
returns the deserialised response with `InschrijvingXML` equal to `d` and no
error, whatever the credentials and the environment; it leaves the file tree
as it is and its only effects are the lookup, the read and the
deserialisation, so the transport is not invoked. -/
theorem cache_hit_first_entry (w : World) (fs : FS) (u n cert key env d : String)
    (files : List FileInfo) (f : FileInfo) (r : OphalenInschrijvingResponse)
    (hlist : ioutilReadDir fs "./cache-inschrijvingen/" = .ok files)
    (hfirst : files.find? (fun g => !g.IsDir && stringsHasPrefix g.Name n) = some f)
    (hread : osReadFile fs ("./cache-inschrijvingen/" ++ f.Name) = .ok d)
    (hxml : w.xmlUnmarshal d = some r) :
    GetInschrijving w fs u n cert key true env =
      { outcome := .returned (some { r with InschrijvingXML := d }) none
        fs := fs
        trace := [Event.readDir "./cache-inschrijvingen/",
          Event.readFile ("./cache-inschrijvingen/" ++ f.Name), Event.xmlUnmarshal d] } ∧
    ∀ c k req, Event.soapDo c k req ∉ (GetInschrijving w fs u n cert key true env).trace := by
  have hpath : getFilePath fs n = "./cache-inschrijvingen/" ++ f.Name := by
    unfold getFilePath
    rw [getFilePathFrom_eq_find, hlist]
    simp only [hfirst]
  have hrun := GetInschrijving_of_hit w fs u n cert key env d (by rw [hpath]; exact hread)
  rw [hxml, hpath] at hrun
  refine ⟨hrun, ?_⟩
  intro c k req hmem
  rw [hrun] at hmem
  simp at hmem

/-- Witness for the amended C1: of the two entries for `123`, `123-a.xml`
comes first and its document `<a/>` is returned. -/
theorem cache_hit_first_entry_witness :
    (GetInschrijving (demoWorld (.error "unreachable")) fsTwoEntries
      "u" "123" "" "" true "").outcome =
      .returned (some { demoResponse with InschrijvingXML := "<a/>" }) none :=
  congrArg Run.outcome
    (cache_hit_first_entry (demoWorld (.error "unreachable")) fsTwoEntries "u" "123" "" "" ""
      "<a/>" [⟨"123-a.xml", false⟩, ⟨"123-b.xml", false⟩] ⟨"123-a.xml", false⟩ demoResponse
      (by decide) (by decide) (by decide) rfl).1

/-! ## Cache write after a network success -/

theorem cacheEntryName (n : String) :
    "cache-inschrijvingen" ++ "/" ++ n ++ ".xml" = "cache-inschrijvingen/" ++ n ++ ".xml" := by
  apply String.ext
  simp

theorem storeInschrijving_fst (fault : String → String → Option Nat) (fs : FS) (n b : String) :
    (storeInschrijving fault fs "cache-inschrijvingen" n b).1 =
      (osWriteFile (ensureCacheDir fs "cache-inschrijvingen")
        ("cache-inschrijvingen/" ++ n ++ ".xml") b
        (fault ("cache-inschrijvingen/" ++ n ++ ".xml") b)).1 := by
  simp [storeInschrijving, cacheEntryName]

theorem no_nul_of_not_mem (n : String) (h : Char.ofNat 0 ∉ n.data) :
    (n.data.any fun c => decide (c = Char.ofNat 0)) = false := by
  rw [List.any_eq_false]
  intro x hx
  simp only [decide_eq_true_eq]
  intro hxe
  subst hxe
  exact h hx

/-- The run of a call that misses the cache, signs, and receives a reply of
status 200 without fault. -/
theorem GetInschrijving_clean_success (w : World) (fs : FS) (u n cert key : String)
    (useCache : Bool) (env b : String) (resp : OphalenInschrijvingResponse)
    (wsse : WSSEAuthInfo)
    (hmiss : cacheMiss fs n useCache) (hc : cert ≠ "") (hk : key ≠ "")
    (hauth : w.NewWSSEAuthInfo cert key = .ok wsse)
    (hdo : w.Do cert key (buildRequest u n env wsse) =
      .ok ({ StatusCode := 200, RespBody := b }, resp))
    (hfout : resp.Meldingen.Fout = none) :
    GetInschrijving w fs u n cert key useCache env =
      { outcome := .returned (some { resp with InschrijvingXML := b }) none
        fs := if useCache then
            (osWriteFile (ensureCacheDir fs "cache-inschrijvingen")
              ("cache-inschrijvingen/" ++ n ++ ".xml") b
              (w.WriteFault ("cache-inschrijvingen/" ++ n ++ ".xml") b)).1
          else fs
        trace :=
          (if useCache then
            [Event.readDir "./cache-inschrijvingen/", Event.readFile (getFilePath fs n)]
          else []) ++
          [Event.newWSSEAuthInfo cert key, Event.newRequest (buildRequest u n env wsse),
            Event.soapDo cert key (buildRequest u n env wsse)] ++
          (if useCache then
            Event.stat "cache-inschrijvingen" ::
              ((if osIsNotExist (osStat fs "cache-inschrijvingen") then
                  [Event.mkdirAll "cache-inschrijvingen"]
                else []) ++
                [Event.writeFile ("cache-inschrijvingen/" ++ n ++ ".xml") b])
          else []) } := by
  have hck : ¬ (cert = "" ∨ key = "") := by
    rintro (h | h) <;> contradiction
  rw [GetInschrijving_of_miss w fs u n cert key useCache env hmiss]
  unfold fetchInschrijving
  simp only [hck, if_false, hauth, hdo, hfout, ne_eq, not_true_eq_false]
  cases useCache with
  | false => simp
  | true =>
    simp only [if_true, storeInschrijving_fst]
    simp [storeInschrijving, cacheEntryName]

/-- The tree after the directory step, when the cache directory is there and
writable or can be created. -/
theorem ensureCacheDir_ready (fs : FS) (l0 w0 : Bool)
    (h0 : lookupNode fs [] = some (Node.dir l0 w0))
    (h1 : (lookupNode fs ["cache-inschrijvingen"] = none ∧ w0 = true) ∨
      ∃ l1, lookupNode fs ["cache-inschrijvingen"] = some (Node.dir l1 true)) :
    lookupNode (ensureCacheDir fs "cache-inschrijvingen") [] = some (Node.dir l0 w0) ∧
    (∃ l1, lookupNode (ensureCacheDir fs "cache-inschrijvingen") ["cache-inschrijvingen"] =
      some (Node.dir l1 true)) ∧
    ∀ p, p ≠ ["cache-inschrijvingen"] →
      lookupNode (ensureCacheDir fs "cache-inschrijvingen") p = lookupNode fs p := by
  rcases ensureCacheDir_cases fs with ⟨he, hnot⟩ | ⟨hnone, -, he⟩
  · rw [he]
    rcases h1 with ⟨hnone, hw0⟩ | ⟨l1, hdir⟩
    · subst hw0
      exact absurd ⟨hnone, l0, h0⟩ hnot
    · exact ⟨h0, ⟨l1, hdir⟩, fun _ _ => rfl⟩
  · rw [he]
    refine ⟨?_, ⟨true, lookupNode_setNode_same _ _ _⟩, ?_⟩
    · rw [lookupNode_setNode_ne _ _ _ _ (by simp), h0]
    · intro p hp
      exact lookupNode_setNode_ne _ _ _ _ hp

/-- The write of a cache entry completes when the registry number is a plain
file name, the cache directory is a writable directory, the name is free or
bound to a writable file, and the disk does not fail. -/
theorem osWriteFile_entry_ok (fs : FS) (n b : String) (l0 w0 l1 : Bool)
    (hplain : '/' ∉ n.data) (hnul : Char.ofNat 0 ∉ n.data)
    (hlen : byteLen (n ++ ".xml") ≤ 255)
    (h0 : lookupNode fs [] = some (Node.dir l0 w0))
    (h1 : lookupNode fs ["cache-inschrijvingen"] = some (Node.dir l1 true))
    (ht : lookupNode fs [n ++ ".xml", "cache-inschrijvingen"] = none ∨
      ∃ old r, lookupNode fs [n ++ ".xml", "cache-inschrijvingen"] =
        some (Node.file old r true)) :
    (osWriteFile fs ("cache-inschrijvingen/" ++ n ++ ".xml") b none).2 = none := by
  unfold osWriteFile
  rw [resolve_write_name fs n l0 w0 l1 true hplain (no_nul_of_not_mem n hnul) hlen h0 h1]
  rcases ht with ht | ⟨old, r, ht⟩
  · simp [ht, h1, writeOpened]
  · simp [ht, writeOpened]

/-- C5 as stated fails: with a cache directory that cannot be written to, a
clean network success with caching on returns the response, but no entry
`cache-inschrijvingen/123.xml` holding the reply exists afterwards. -/
theorem store_always_written_counterexample :
    ¬ ∀ (w : World) (fs : FS) (u n cert key env b : String)
      (resp : OphalenInschrijvingResponse) (wsse : WSSEAuthInfo),
      cert ≠ "" → key ≠ "" → w.NewWSSEAuthInfo cert key = .ok wsse →
      (∃ e, osReadFile fs (getFilePath fs n) = .error e) →
      w.Do cert key (buildRequest u n env wsse) =
        .ok ({ StatusCode := 200, RespBody := b }, resp) →
      resp.Meldingen.Fout = none →
      (∃ r wr, osStat (GetInschrijving w fs u n cert key true env).fs
          ("cache-inschrijvingen/" ++ n ++ ".xml") = .ok (Node.file b r wr)) ∧
        ∃ out, (GetInschrijving w fs u n cert key true env).outcome =
          .returned (some out) none ∧ out.InschrijvingXML = b := by
  intro h
  obtain ⟨⟨r, wr, hstat⟩, -⟩ :=
    h (demoWorld (.ok ({ StatusCode := 200, RespBody := "<r/>" }, demoResponse)))
      fsReadOnlyCache "u" "123" "c" "k" "prd" "<r/>" demoResponse
      { certificate := "c", key := "k" } (by decide) (by decide) rfl
      ⟨Errno.ENOENT, by decide⟩ rfl rfl
  have hv : osStat (GetInschrijving
      (demoWorld (.ok ({ StatusCode := 200, RespBody := "<r/>" }, demoResponse)))
      fsReadOnlyCache "u" "123" "c" "k" true "prd").fs
      ("cache-inschrijvingen/" ++ "123" ++ ".xml") = .error Errno.ENOENT := by decide
  rw [hv] at hstat
  cases hstat

/-- C5, amended: for non-empty credentials accepted by the signing step, when
caching is on, the lookup misses, and the transport returns no error, status
200 and a reply body `b` without fault, the call returns a response and no
error, with `InschrijvingXML` equal to `b`, whatever becomes of the cache
write. After the request it stats the cache directory, calls `MkdirAll` when
the directory is reported missing, and writes `b` to
`"cache-inschrijvingen/" ++ n ++ ".xml"`, and the tree it leaves is the one
that write leaves. When the cache directory is missing from a writable
working directory, it is a listable, writable directory afterwards. When
moreover the registry number is a plain file name (no `/`, no NUL, at most
255 bytes with the extension), the cache directory is writable or has just
been created, the entry name is free or bound to a writable file, and the
disk does not fail, a regular file holding `b` is at that name afterwards. -/
theorem network_success_stores_best_effort (w : World) (fs : FS)
    (u n cert key env b : String) (resp : OphalenInschrijvingResponse) (wsse : WSSEAuthInfo)
    (hc : cert ≠ "") (hk : key ≠ "") (hauth : w.NewWSSEAuthInfo cert key = .ok wsse)
    (hmiss : ∃ e, osReadFile fs (getFilePath fs n) = .error e)
    (hdo : w.Do cert key (buildRequest u n env wsse) =
      .ok ({ StatusCode := 200, RespBody := b }, resp))
    (hfout : resp.Meldingen.Fout = none) :
    (GetInschrijving w fs u n cert key true env).outcome =
      .returned (some { resp with InschrijvingXML := b }) none ∧
    (GetInschrijving w fs u n cert key true env).trace =
      [Event.readDir "./cache-inschrijvingen/", Event.readFile (getFilePath fs n),
        Event.newWSSEAuthInfo cert key, Event.newRequest (buildRequest u n env wsse),
        Event.soapDo cert key (buildRequest u n env wsse),
        Event.stat "cache-inschrijvingen"] ++
      (if osIsNotExist (osStat fs "cache-inschrijvingen") then
        [Event.mkdirAll "cache-inschrijvingen"] else []) ++
      [Event.writeFile ("cache-inschrijvingen/" ++ n ++ ".xml") b] ∧
    (GetInschrijving w fs u n cert key true env).fs =
      (osWriteFile (ensureCacheDir fs "cache-inschrijvingen")
        ("cache-inschrijvingen/" ++ n ++ ".xml") b
        (w.WriteFault ("cache-inschrijvingen/" ++ n ++ ".xml") b)).1 ∧
    (∀ l0, lookupNode fs [] = some (Node.dir l0 true) →
      lookupNode fs ["cache-inschrijvingen"] = none →
      osStat (GetInschrijving w fs u n cert key true env).fs "cache-inschrijvingen" =
        .ok (Node.dir true true)) ∧
    (∀ l0 w0, lookupNode fs [] = some (Node.dir l0 w0) →
      ((lookupNode fs ["cache-inschrijvingen"] = none ∧ w0 = true) ∨
        ∃ l1, lookupNode fs ["cache-inschrijvingen"] = some (Node.dir l1 true)) →
      '/' ∉ n.data → Char.ofNat 0 ∉ n.data → byteLen (n ++ ".xml") ≤ 255 →
      (lookupNode fs [n ++ ".xml", "cache-inschrijvingen"] = none ∨
        ∃ old r, lookupNode fs [n ++ ".xml", "cache-inschrijvingen"] =
          some (Node.file old r true)) →
      w.WriteFault ("cache-inschrijvingen/" ++ n ++ ".xml") b = none →
      ∃ r, osStat (GetInschrijving w fs u n cert key true env).fs
        ("cache-inschrijvingen/" ++ n ++ ".xml") = .ok (Node.file b r true)) := by
  obtain ⟨e, he⟩ := hmiss
  have hrun := GetInschrijving_clean_success w fs u n cert key true env b resp wsse
    (cacheMiss_of_error fs n true e he) hc hk hauth hdo hfout
  simp only [if_true] at hrun
  rw [hrun]
  refine ⟨rfl, by simp, rfl, ?_, ?_⟩
  · intro l0 h0 h1
    obtain ⟨h0', ⟨l1, h1'⟩, -⟩ := ensureCacheDir_ready fs l0 true h0 (Or.inl ⟨h1, rfl⟩)
    have hl1 : l1 = true := by
      rcases ensureCacheDir_cases fs with ⟨-, hnot⟩ | ⟨-, -, hens⟩
      · exact absurd ⟨h1, l0, h0⟩ hnot
      · rw [hens, lookupNode_setNode_same] at h1'
        simp only [Option.some.injEq, Node.dir.injEq] at h1'
        exact h1'.1.symm
    subst hl1
    have hcp : ¬ ("cache-inschrijvingen" = "" ∨ "cache-inschrijvingen" = ".") := by decide
    have hcp2 : "cache-inschrijvingen" ≠ ".." := by decide
    unfold osStat
    rw [resolve_cachePath]
    simp [walk, hcp, hcp2, cachePath_short,
      osWriteFile_preserves_dir _ _ _ _ _ _ _ h0', osWriteFile_preserves_dir _ _ _ _ _ _ _ h1']
  · intro l0 w0 h0 h1 hplain hnul hlen ht hfault
    obtain ⟨h0', ⟨l1, h1'⟩, hother⟩ := ensureCacheDir_ready fs l0 w0 h0 h1
    rw [hfault]
    apply osStat_after_osWriteFile
    apply osWriteFile_entry_ok _ n b l0 w0 l1 hplain hnul hlen h0' h1'
    rw [hother _ (by simp)]
    exact ht

/-- Witness for the amended C5: without cache directory the call creates it
and stores the reply as `cache-inschrijvingen/123.xml`, from where it can be
read back. -/
theorem network_success_stores_best_effort_witness :
    (GetInschrijving (demoWorld (.ok ({ StatusCode := 200, RespBody := "<r/>" }, demoResponse)))
      fsNoCache "u" "123" "c" "k" true "prd").outcome =
      .returned (some { demoResponse with InschrijvingXML := "<r/>" }) none ∧
    osStat (GetInschrijving
      (demoWorld (.ok ({ StatusCode := 200, RespBody := "<r/>" }, demoResponse)))
      fsNoCache "u" "123" "c" "k" true "prd").fs "cache-inschrijvingen" =
      .ok (Node.dir true true) ∧
    (∃ r, osStat (GetInschrijving
      (demoWorld (.ok ({ StatusCode := 200, RespBody := "<r/>" }, demoResponse)))
      fsNoCache "u" "123" "c" "k" true "prd").fs ("cache-inschrijvingen/" ++ "123" ++ ".xml") =
      .ok (Node.file "<r/>" r true)) ∧
    (GetInschrijving (demoWorld (.ok ({ StatusCode := 200, RespBody := "<r/>" }, demoResponse)))
      fsNoCache "u" "123" "c" "k" true "prd").fs =
      [([], Node.dir true true), (["cache-inschrijvingen"], Node.dir true true),
        (["123.xml", "cache-inschrijvingen"], Node.file "<r/>" true true)] :=
  have h := network_success_stores_best_effort
    (demoWorld (.ok ({ StatusCode := 200, RespBody := "<r/>" }, demoResponse)))
    fsNoCache "u" "123" "c" "k" "prd" "<r/>" demoResponse { certificate := "c", key := "k" }
    (by decide) (by decide) rfl ⟨Errno.ENOENT, by decide⟩ rfl rfl
  ⟨h.1, h.2.2.2.1 true (by decide) (by decide),
    h.2.2.2.2 true true (by decide) (Or.inl (by decide)) (by decide) (by decide) (by decide)
      (Or.inl (by decide)) rfl, by decide⟩

/-! ## Fetching again -/

/-- C9 as stated fails: for the registry number `a/b` and a cache directory
that holds only a subdirectory `a`, the first call succeeds over the network
and its cache write succeeds (into `cache-inschrijvingen/a/b.xml`), yet the
second call finds no entry starting with `a/b`, is not served from the cache
and, without credentials, returns the missing-credential error. This is so
even when the reply deserialises on the cache path to the payload of the
first call. -/
theorem refetch_any_number_counterexample :
    ¬ ∀ (w w2 : World) (fs : FS) (u u2 n cert key env cert2 key2 env2 b : String)
      (files : List FileInfo) (req : Request) (resp r : OphalenInschrijvingResponse),
      ioutilReadDir fs "./cache-inschrijvingen/" = .ok files →
      (∀ f ∈ files, stringsHasPrefix f.Name n = false) →
      Event.soapDo cert key req ∈ (GetInschrijving w fs u n cert key true env).trace →
      w.Do cert key req = .ok ({ StatusCode := 200, RespBody := b }, resp) →
      resp.Meldingen.Fout = none →
      (osWriteFile (ensureCacheDir fs "cache-inschrijvingen")
        ("cache-inschrijvingen/" ++ n ++ ".xml") b
        (w.WriteFault ("cache-inschrijvingen/" ++ n ++ ".xml") b)).2 = none →
      w2.xmlUnmarshal b = some r →
      r.Meldingen = resp.Meldingen ∧ r.Product = resp.Product →
      (∃ out, (GetInschrijving w2 (GetInschrijving w fs u n cert key true env).fs
          u2 n cert2 key2 true env2).outcome = .returned (some out) none ∧
        out.InschrijvingXML = b) ∧
      ∀ c k q, Event.soapDo c k q ∉
        (GetInschrijving w2 (GetInschrijving w fs u n cert key true env).fs
          u2 n cert2 key2 true env2).trace := by
  intro h
  obtain ⟨⟨out, hout, -⟩, -⟩ :=
    h (demoWorld (.ok ({ StatusCode := 200, RespBody := "<r/>" }, demoResponse)))
      (demoWorld (.error "unreachable")) fsSubdir "u" "v" "a/b" "c" "k" "prd" "" "" "prd" "<r/>"
      [⟨"a", true⟩] (buildRequest "u" "a/b" "prd" { certificate := "c", key := "k" })
      demoResponse demoResponse (by decide) (by decide) (by decide) rfl rfl (by decide) rfl
      ⟨rfl, rfl⟩
  have hv : (GetInschrijving (demoWorld (.error "unreachable"))
      (GetInschrijving (demoWorld (.ok ({ StatusCode := 200, RespBody := "<r/>" }, demoResponse)))
        fsSubdir "u" "a/b" "c" "k" true "prd").fs "v" "a/b" "" "" true "prd").outcome =
      .returned none (some (GoError.errorsNew
        "no certificate or private key, so no connection possible with HRDS")) := by decide
  rw [hv] at hout
  cases hout

/-- C9, amended: let the registry number contain no path separator, let the
cache directory be missing or listable, and let it hold no entry whose name
starts with the registry number. If a first call with caching on succeeds
over the network with reply body `b` and its cache write succeeds, and `b`
deserialises on the cache path to the payload that the client deserialised
from it, then a second call with caching on, on the tree left by the first
and with any credentials and environment, is served from the entry
`"./cache-inschrijvingen/" ++ n ++ ".xml"` without invoking the transport,
leaves the tree as it is, and returns what the first call returned: a
response, without error, whose `InschrijvingXML` is `b` and whose
deserialised payload is that of the first call. -/
theorem refetch_served_from_cache (w w2 : World) (fs : FS)
    (u u2 n cert key env cert2 key2 env2 b : String)
    (req : Request) (resp r : OphalenInschrijvingResponse)
    (hplain : '/' ∉ n.data)
    (hdir : lookupNode fs ["cache-inschrijvingen"] = none ∨
      ∃ wr, lookupNode fs ["cache-inschrijvingen"] = some (Node.dir true wr))
    (hfresh : ∀ f ∈ children ["cache-inschrijvingen"] fs, stringsHasPrefix f.Name n = false)
    (hreach : Event.soapDo cert key req ∈ (GetInschrijving w fs u n cert key true env).trace)
    (hdo : w.Do cert key req = .ok ({ StatusCode := 200, RespBody := b }, resp))
    (hfout : resp.Meldingen.Fout = none)
    (hwrite : (osWriteFile (ensureCacheDir fs "cache-inschrijvingen")
      ("cache-inschrijvingen/" ++ n ++ ".xml") b
      (w.WriteFault ("cache-inschrijvingen/" ++ n ++ ".xml") b)).2 = none)
    (hxml : w2.xmlUnmarshal b = some r)
    (hpayload : r.Meldingen = resp.Meldingen ∧ r.Product = resp.Product) :
    (GetInschrijving w fs u n cert key true env).outcome =
      .returned (some { resp with InschrijvingXML := b }) none ∧
    GetInschrijving w2 (GetInschrijving w fs u n cert key true env).fs
        u2 n cert2 key2 true env2 =
      { outcome := .returned (some { resp with InschrijvingXML := b }) none
        fs := (GetInschrijving w fs u n cert key true env).fs
        trace := [Event.readDir "./cache-inschrijvingen/",
          Event.readFile ("./cache-inschrijvingen/" ++ n ++ ".xml"), Event.xmlUnmarshal b] } ∧
    (GetInschrijving w2 (GetInschrijving w fs u n cert key true env).fs
        u2 n cert2 key2 true env2).outcome =
      (GetInschrijving w fs u n cert key true env).outcome ∧
    ∀ c k q, Event.soapDo c k q ∉
      (GetInschrijving w2 (GetInschrijving w fs u n cert key true env).fs
        u2 n cert2 key2 true env2).trace := by
  obtain ⟨hmiss, hc, hk, -, -, wsse, hauth, hreq⟩ :=
    (soapDo_mem_trace_iff w fs u n cert key true env cert key req).1 hreach
  subst hreq
  have hrun := GetInschrijving_clean_success w fs u n cert key true env b resp wsse
    hmiss hc hk hauth hdo hfout
  simp only [if_true] at hrun
  have hlist : ∀ l wr, lookupNode (ensureCacheDir fs "cache-inschrijvingen")
      ["cache-inschrijvingen"] = some (Node.dir l wr) → l = true := by
    intro l wr hl
    rcases ensureCacheDir_cases fs with ⟨he, -⟩ | ⟨-, -, he⟩
    · rw [he] at hl
      rcases hdir with hd | ⟨wr2, hd⟩
      · rw [hd] at hl; cases hl
      · rw [hd] at hl
        simp only [Option.some.injEq, Node.dir.injEq] at hl
        exact hl.1.symm
    · rw [he, lookupNode_setNode_same] at hl
      simp only [Option.some.injEq, Node.dir.injEq] at hl
      exact hl.1.symm
  have hfresh1 : ∀ f ∈ children ["cache-inschrijvingen"]
      (ensureCacheDir fs "cache-inschrijvingen"), stringsHasPrefix f.Name n = false := by
    rcases ensureCacheDir_cases fs with ⟨he, -⟩ | ⟨hnone, -, he⟩
    · rw [he]; exact hfresh
    · rw [he, setNode_of_lookup_none _ _ _ hnone,
        children_append_other _ _ _ _ (by intro name; simp)]
      exact hfresh
  obtain ⟨hpath, hread⟩ := lookup_after_store _ n b _ hplain hlist hfresh1 hwrite
  have hfs : (GetInschrijving w fs u n cert key true env).fs =
      (osWriteFile (ensureCacheDir fs "cache-inschrijvingen")
        ("cache-inschrijvingen/" ++ n ++ ".xml") b
        (w.WriteFault ("cache-inschrijvingen/" ++ n ++ ".xml") b)).1 := by
    rw [hrun]
  have hout : (GetInschrijving w fs u n cert key true env).outcome =
      .returned (some { resp with InschrijvingXML := b }) none := by
    rw [hrun]
  have hsame : ({ r with InschrijvingXML := b } : OphalenInschrijvingResponse) =
      { resp with InschrijvingXML := b } := by
    rw [hpayload.1, hpayload.2]
  have hrun2 := GetInschrijving_of_hit w2 _ u2 n cert2 key2 env2 b
    (by rw [hpath]; exact hread)
  rw [hxml, hpath, ← String.append_assoc] at hrun2
  simp only [hsame] at hrun2
  rw [hfs]
  refine ⟨hout, hrun2, ?_, ?_⟩
  · rw [hrun2, hout]
  · intro c k q hmem
    rw [hrun2] at hmem
    simp at hmem

/-- Witness for the amended C9: without cache directory, a first call for
`123` stores the reply, and a second call without credentials returns what
the first returned. -/
theorem refetch_served_from_cache_witness :
    (GetInschrijving (demoWorld (.error "unreachable"))
      (GetInschrijving (demoWorld (.ok ({ StatusCode := 200, RespBody := "<r/>" }, demoResponse)))
        fsNoCache "u" "123" "c" "k" true "prd").fs "v" "123" "" "" true "").outcome =
      .returned (some { demoResponse with InschrijvingXML := "<r/>" }) none ∧
    (GetInschrijving (demoWorld (.error "unreachable"))
      (GetInschrijving (demoWorld (.ok ({ StatusCode := 200, RespBody := "<r/>" }, demoResponse)))
        fsNoCache "u" "123" "c" "k" true "prd").fs "v" "123" "" "" true "").outcome =
    (GetInschrijving (demoWorld (.ok ({ StatusCode := 200, RespBody := "<r/>" }, demoResponse)))
      fsNoCache "u" "123" "c" "k" true "prd").outcome :=
  have h := refetch_served_from_cache
    (demoWorld (.ok ({ StatusCode := 200, RespBody := "<r/>" }, demoResponse)))
    (demoWorld (.error "unreachable")) fsNoCache "u" "v" "123" "c" "k" "prd" "" "" "" "<r/>"
    (buildRequest "u" "123" "prd" { certificate := "c", key := "k" }) demoResponse demoResponse
    (by decide) (Or.inl (by decide)) (by decide) (by decide) rfl rfl (by decide) rfl ⟨rfl, rfl⟩
  ⟨congrArg Run.outcome h.2.1, h.2.2.1⟩

end Bevoegdheden
